import Mathlib

/-! ciselect: the confirm (enter-key) state machine

A shallow embedding of `internal/ui/handlers/handlers.go` and
`internal/ui/view/table.go`.

* Pointers that may be nil (`*core.Service`, `*ApprovalAction`, ...) are `Option`s.
* Go slices that are tested against nil or may be nil are `Option (List _)`
  (`none` is the nil slice); `len` and `range` see a nil slice as empty.
* An index expression out of range (`selected[1]` on a one-cell row) and a nil
  dereference are run-time panics: the handlers return `Option`, `none` being
  the panic.
* A `tea.Cmd` is a deferred closure; it is kept as data (`Cmd`) that records the
  model the closure captured, and `Cmd.run` is the body of the closure.
-/

namespace Ciselect

/-! ## Collaborators outside the source files -/

/-- Modelled from the spec: the `constants` package is not among the source
files; the screens are the finite enumeration of section 3.1, under the names
the handlers use. -/
inductive View where
  | ViewProviders
  | ViewAWSConfig
  | ViewSelectService
  | ViewSelectCategory
  | ViewSelectOperation
  | ViewApprovals
  | ViewConfirmation
  | ViewSummary
  | ViewExecutingAction
  | ViewPipelineStatus
  | ViewPipelineStages
  deriving DecidableEq, Repr

open View

/-- Go slice: `none` is the nil slice. -/
abbrev Slice (α : Type) := Option (List α)

/-- The elements a `range` loop over the slice visits (none for a nil slice). -/
def Slice.elems {α : Type} (s : Slice α) : List α := s.getD []

/-- Service of `model/types.go`. -/
structure Service where
  ID : String
  Name : String
  Description : String
  Available : Bool
  deriving DecidableEq, Repr

/-- Category of `model/types.go`. -/
structure Category where
  ID : String
  Name : String
  Description : String
  Available : Bool
  deriving DecidableEq, Repr

/-- Operation of `model/types.go`. -/
structure Operation where
  ID : String
  Name : String
  Description : String
  deriving DecidableEq, Repr

/-- Modelled from the spec: `providers.ApprovalAction` is not among the source
files; section 3.2 gives its attributes (pipelineName, stageName, actionName,
token). -/
structure ApprovalAction where
  PipelineName : String
  StageName : String
  ActionName : String
  Token : String
  deriving DecidableEq, Repr

/-- Modelled from the spec: `providers.StageStatus` (name, status, lastUpdated). -/
structure StageStatus where
  Name : String
  Status : String
  LastUpdated : String
  deriving DecidableEq, Repr

/-- Modelled from the spec: `providers.PipelineStatus` (name, ordered stages). -/
structure PipelineStatus where
  Name : String
  Stages : List StageStatus
  deriving DecidableEq, Repr

/-- A row of the bubbles table: its cells. -/
abbrev Row := List String

/-- A column of the bubbles table. -/
structure Column where
  Title : String
  Width : Nat
  deriving DecidableEq, Repr

/-- The part of the bubbles `table.Model` the handlers observe: columns, rows,
the cursor (index of the highlighted row), focus, height and the style
installed by `SetStyles` (an abstract token). -/
structure Table where
  cols : List Column
  rows : List Row
  cursor : Nat
  focus : Bool
  height : Nat
  styles : Nat
  deriving DecidableEq, Repr

/-- Bubbles `table.Model.SelectedRow`: the row under the cursor, nil (no cells)
when the cursor is outside the rows. -/
def SelectedRow (t : Table) : Row := (t.rows.get? t.cursor).getD []

/-- The part of the bubbles `textinput.Model` the handlers observe. -/
structure TextInput where
  value : String
  Placeholder : String
  focus : Bool
  deriving DecidableEq, Repr

/-- `textinput.Model.Value`. -/
def TextInput.Value (t : TextInput) : String := t.value

/-- `textinput.Model.Focus`. -/
def TextInput.Focus (t : TextInput) : TextInput := { t with focus := true }

/-- Go `unicode.IsSpace`: the Latin-1 spaces and the Unicode White_Space
property. -/
def isSpace (c : Char) : Bool :=
  let n := c.toNat
  n == 0x09 || n == 0x0A || n == 0x0B || n == 0x0C || n == 0x0D || n == 0x20
    || n == 0x85 || n == 0xA0 || n == 0x1680 || (0x2000 ≤ n && n ≤ 0x200A)
    || n == 0x2028 || n == 0x2029 || n == 0x202F || n == 0x205F || n == 0x3000

/-- Go `strings.TrimSpace`: the string without its leading and trailing white
space. -/
def TrimSpace (s : String) : String :=
  String.mk ((s.data.dropWhile isSpace).reverse.dropWhile isSpace).reverse

/-- Modelled from the spec: `core.Model` is not among the source files; these
are the fields the handlers and the screen catalog read or write, typed as
section 3.3 describes them. `Styles` stands for `m.Styles.Table`. -/
structure Model where
  CurrentView : View
  ManualInput : Bool
  TextInput : TextInput
  Table : Table
  Styles : Nat
  AwsProfile : String
  AwsRegion : String
  Profiles : Slice String
  Regions : Slice String
  SelectedService : Option Service
  SelectedCategory : Option Category
  SelectedOperation : Option Operation
  Approvals : Slice ApprovalAction
  Pipelines : Slice PipelineStatus
  SelectedApproval : Option ApprovalAction
  SelectedPipeline : Option PipelineStatus
  ApproveAction : Bool
  ApprovalComment : String
  CommitID : String
  ManualCommitID : Bool
  Summary : String
  IsLoading : Bool
  LoadingMsg : String
  deriving DecidableEq, Repr

/-- Modelled from the spec: `core.Model.ResetTextInput` is not among the source
files; the spec calls it "reset buffer" (the text input's `reset()` of section
6.2): the value becomes empty. -/
def Model.ResetTextInput (m : Model) : Model :=
  { m with TextInput := { m.TextInput with value := "" } }

/-- The functions of the `core` and `navigation` packages that the handlers
call and that are not among the source files, taken as parameters:
`SetTextInputForApproval` (installs the approval or rejection comment prompt on
the text input) and `NavigateBack`. -/
structure Core where
  SetTextInputForApproval : Bool → TextInput → TextInput
  NavigateBack : Model → Model

/-! ## The screen catalog (`view/table.go`) -/

/-- The columns of the current screen (`getColumnsForView`). -/
def getColumnsForView (m : Model) : List Column :=
  match m.CurrentView with
  | ViewProviders => [⟨"Provider", 30⟩, ⟨"Description", 50⟩]
  | ViewAWSConfig =>
    if m.AwsProfile = "" then [⟨"Profile", 30⟩] else [⟨"Region", 30⟩]
  | ViewSelectService => [⟨"Service", 30⟩, ⟨"Description", 50⟩]
  | ViewSelectCategory => [⟨"Category", 30⟩, ⟨"Description", 50⟩]
  | ViewSelectOperation => [⟨"Operation", 30⟩, ⟨"Description", 50⟩]
  | ViewApprovals => [⟨"Pipeline", 40⟩, ⟨"Stage", 30⟩, ⟨"Action", 20⟩]
  | ViewConfirmation => [⟨"Action", 30⟩, ⟨"Description", 50⟩]
  | ViewExecutingAction => [⟨"Action", 30⟩, ⟨"Description", 50⟩]
  | ViewPipelineStatus => [⟨"Pipeline", 40⟩, ⟨"Description", 50⟩]
  | ViewPipelineStages => [⟨"Stage", 30⟩, ⟨"Status", 20⟩, ⟨"Last Updated", 20⟩]
  | ViewSummary => [⟨"Type", 30⟩, ⟨"Value", 50⟩]

/-- Whether the selected operation is set and named `name`
(`m.SelectedOperation != nil && m.SelectedOperation.Name == name`). -/
def operationIs (m : Model) (name : String) : Bool :=
  match m.SelectedOperation with
  | some op => decide (op.Name = name)
  | none => false

/-- The rows of the current screen (`getRowsForView`). -/
def getRowsForView (m : Model) : List Row :=
  match m.CurrentView with
  | ViewProviders =>
    [["Amazon Web Services", "AWS Cloud Services"],
     ["Microsoft Azure (Coming Soon)", "Azure Cloud Platform"],
     ["Google Cloud Platform (Coming Soon)", "Google Cloud Services"]]
  | ViewAWSConfig =>
    if m.AwsProfile = "" then
      ["Manual Entry"] :: m.Profiles.elems.map (fun profile => [profile])
    else
      ["Manual Entry"] :: m.Regions.elems.map (fun region => [region])
  | ViewSelectService => [["CodePipeline", "Continuous Delivery Service"]]
  | ViewSelectCategory =>
    [["Workflows", "Pipeline Workflows and Approvals"],
     ["Operations (Coming Soon)", "Service Operations"]]
  | ViewSelectOperation =>
    match m.SelectedCategory with
    | some c =>
      if c.Name = "Workflows" then
        [["Pipeline Approvals", "Manage Pipeline Approvals"],
         ["Pipeline Status", "View Pipeline Status"],
         ["Start Pipeline", "Trigger Pipeline Execution"]]
      else []
    | none => []
  | ViewApprovals =>
    m.Approvals.elems.map
      (fun approval => [approval.PipelineName, approval.StageName, approval.ActionName])
  | ViewConfirmation =>
    [["Approve", "Approve the pipeline stage"],
     ["Reject", "Reject the pipeline stage"]]
  | ViewExecutingAction =>
    if operationIs m "Start Pipeline" then
      [["Execute", "Start pipeline with latest commit"],
       ["Cancel", "Cancel and return to main menu"]]
    else
      let action := if !m.ApproveAction then "reject" else "approve"
      [["Execute", "Execute " ++ action ++ " action"],
       ["Cancel", "Cancel and return to main menu"]]
  | ViewPipelineStatus =>
    match m.Pipelines with
    | none => []
    | some pipelines =>
      pipelines.map
        (fun pipeline => [pipeline.Name, toString pipeline.Stages.length ++ " stages"])
  | ViewPipelineStages =>
    match m.SelectedPipeline with
    | none => []
    | some p => p.Stages.map (fun stage => [stage.Name, stage.Status, stage.LastUpdated])
  | ViewSummary =>
    if operationIs m "Start Pipeline" then
      match m.SelectedPipeline with
      | none => []
      | some _ =>
        [["Latest Commit", "Use latest commit from source"],
         ["Manual Input", "Enter specific commit ID"]]
    else []

/-- Rebuild the table for the current screen (`UpdateTableForView`): a new
table with the screen's columns and rows, focused, of height 6, the cursor on
the first row, carrying the model's table style. -/
def UpdateTableForView (m : Model) : Model :=
  { m with Table :=
      { cols := getColumnsForView m, rows := getRowsForView m, cursor := 0,
        focus := true, height := 6, styles := m.Styles } }

/-! ## The async task layer (`handlers.go`, "Async operations") -/

/-- A provider adapter built by `aws.New`: an abstract handle. -/
structure Provider where
  handle : Nat
  deriving DecidableEq, Repr

/-- The `aws` package is not among the source files: the adapter constructor
and the four capabilities are parameters. A Go `error` is `Option String`
(`none` is nil); a `(value, error)` result is an `Except`. -/
structure Aws where
  New : String → String → Except String Provider
  GetPendingApprovals : Provider → Except String (Slice ApprovalAction)
  GetPipelineStatus : Provider → Except String (Slice PipelineStatus)
  PutApprovalResult : Provider → ApprovalAction → Bool → String → Option String
  StartPipelineExecution : Provider → String → String → Option String

/-- A call a task makes on the `aws` package, with its arguments. -/
inductive Call where
  | New (profile region : String)
  | GetPendingApprovals (p : Provider)
  | GetPipelineStatus (p : Provider)
  | PutApprovalResult (p : Provider) (a : ApprovalAction) (approve : Bool) (comment : String)
  | StartPipelineExecution (p : Provider) (pipelineName commitID : String)
  deriving DecidableEq, Repr

/-- The result messages of `model/types.go` that the tasks post. -/
inductive Msg where
  | ErrMsg (Err : Option String)
  | ApprovalsMsg (Approvals : Slice ApprovalAction) (Provider : Provider)
  | ApprovalResultMsg (Err : Option String)
  | PipelineStatusMsg (Pipelines : Slice PipelineStatus) (Provider : Provider)
  | PipelineExecutionMsg (Err : Option String)
  deriving DecidableEq, Repr

/-- What running a task does: the calls made, in order, and the message
returned (`none` when the closure panics on a nil dereference). -/
structure TaskRun where
  calls : List Call
  result : Option Msg
  deriving DecidableEq, Repr

/-- The closure returned by `FetchApprovals(m)`. -/
def FetchApprovals (aws : Aws) (m : Model) : TaskRun :=
  match aws.New m.AwsProfile m.AwsRegion with
  | .error err => ⟨[.New m.AwsProfile m.AwsRegion], some (.ErrMsg (some err))⟩
  | .ok provider =>
    match aws.GetPendingApprovals provider with
    | .error err =>
      ⟨[.New m.AwsProfile m.AwsRegion, .GetPendingApprovals provider], some (.ErrMsg (some err))⟩
    | .ok approvals =>
      ⟨[.New m.AwsProfile m.AwsRegion, .GetPendingApprovals provider],
        some (.ApprovalsMsg approvals provider)⟩

/-- The closure returned by `FetchPipelineStatus(m)`. -/
def FetchPipelineStatus (aws : Aws) (m : Model) : TaskRun :=
  match aws.New m.AwsProfile m.AwsRegion with
  | .error err => ⟨[.New m.AwsProfile m.AwsRegion], some (.ErrMsg (some err))⟩
  | .ok provider =>
    match aws.GetPipelineStatus provider with
    | .error err =>
      ⟨[.New m.AwsProfile m.AwsRegion, .GetPipelineStatus provider], some (.ErrMsg (some err))⟩
    | .ok pipelines =>
      ⟨[.New m.AwsProfile m.AwsRegion, .GetPipelineStatus provider],
        some (.PipelineStatusMsg pipelines provider)⟩

/-- The closure returned by `ExecuteApproval(m)`; `*m.SelectedApproval` panics
when the selection is nil. -/
def ExecuteApproval (aws : Aws) (m : Model) : TaskRun :=
  match aws.New m.AwsProfile m.AwsRegion with
  | .error err => ⟨[.New m.AwsProfile m.AwsRegion], some (.ApprovalResultMsg (some err))⟩
  | .ok provider =>
    match m.SelectedApproval with
    | none => ⟨[.New m.AwsProfile m.AwsRegion], none⟩
    | some a =>
      ⟨[.New m.AwsProfile m.AwsRegion,
         .PutApprovalResult provider a m.ApproveAction m.ApprovalComment],
        some (.ApprovalResultMsg
          (aws.PutApprovalResult provider a m.ApproveAction m.ApprovalComment))⟩

/-- The closure returned by `ExecutePipeline(m)`; `m.SelectedPipeline.Name`
panics when the selection is nil. -/
def ExecutePipeline (aws : Aws) (m : Model) : TaskRun :=
  match aws.New m.AwsProfile m.AwsRegion with
  | .error err => ⟨[.New m.AwsProfile m.AwsRegion], some (.PipelineExecutionMsg (some err))⟩
  | .ok provider =>
    let commitID := if m.ManualCommitID then m.CommitID else ""
    match m.SelectedPipeline with
    | none => ⟨[.New m.AwsProfile m.AwsRegion], none⟩
    | some p =>
      ⟨[.New m.AwsProfile m.AwsRegion, .StartPipelineExecution provider p.Name commitID],
        some (.PipelineExecutionMsg (aws.StartPipelineExecution provider p.Name commitID))⟩

/-- A `tea.Cmd` emitted by a handler: which task, and the model its closure
captured. -/
inductive Cmd where
  | FetchApprovals (m : Model)
  | FetchPipelineStatus (m : Model)
  | ExecuteApproval (m : Model)
  | ExecutePipeline (m : Model)
  deriving DecidableEq, Repr

/-- Running an emitted task. -/
def Cmd.run (aws : Aws) : Cmd → TaskRun
  | .FetchApprovals m => Ciselect.FetchApprovals aws m
  | .FetchPipelineStatus m => Ciselect.FetchPipelineStatus aws m
  | .ExecuteApproval m => Ciselect.ExecuteApproval aws m
  | .ExecutePipeline m => Ciselect.ExecutePipeline aws m

/-! ## The navigation engine (`handlers.go`) -/

/-- What a handler returns: the new model and the task emitted, if any. -/
abbrev Step := Model × Option Cmd

/-- `HandleProviderSelection`. -/
def HandleProviderSelection (m : Model) : Option Step :=
  match SelectedRow m.Table with
  | [] => some (m, none)
  | s0 :: _ =>
    if s0 = "Amazon Web Services" then
      some (UpdateTableForView { m with CurrentView := ViewAWSConfig }, none)
    else some (m, none)

/-- `HandleAWSConfigSelection`. -/
def HandleAWSConfigSelection (m : Model) : Option Step :=
  match SelectedRow m.Table with
  | [] => some (m, none)
  | s0 :: _ =>
    if s0 = "Manual Entry" then
      let newModel := { m with ManualInput := true, TextInput := m.TextInput.Focus }
      if m.AwsProfile = "" then
        some ({ newModel with TextInput :=
                  { newModel.TextInput with Placeholder := "Enter AWS profile name..." } }, none)
      else
        some ({ newModel with TextInput :=
                  { newModel.TextInput with Placeholder := "Enter AWS region..." } }, none)
    else if m.AwsProfile = "" then
      some (UpdateTableForView { m with AwsProfile := s0 }, none)
    else
      some (UpdateTableForView { m with AwsRegion := s0, CurrentView := ViewSelectService }, none)

/-- `HandleServiceSelection`; `selected[1]` panics on a one-cell row. -/
def HandleServiceSelection (m : Model) : Option Step :=
  match SelectedRow m.Table with
  | [] => some (m, none)
  | s0 :: rest =>
    match rest.head? with
    | none => none
    | some s1 =>
      some (UpdateTableForView
        { m with SelectedService := some ⟨"", s0, s1, false⟩,
                 CurrentView := ViewSelectCategory }, none)

/-- `HandleCategorySelection`; `selected[1]` panics on a one-cell row. -/
def HandleCategorySelection (m : Model) : Option Step :=
  match SelectedRow m.Table with
  | [] => some (m, none)
  | s0 :: rest =>
    match rest.head? with
    | none => none
    | some s1 =>
      some (UpdateTableForView
        { m with SelectedCategory := some ⟨"", s0, s1, false⟩,
                 CurrentView := ViewSelectOperation }, none)

/-- `HandleOperationSelection`; `selected[1]` panics on a one-cell row. The
tasks capture `m`, the model before the update; for a name that is none of the
three operations the function falls through to `return WrapModel(m), nil`. -/
def HandleOperationSelection (m : Model) : Option Step :=
  match SelectedRow m.Table with
  | [] => some (m, none)
  | s0 :: rest =>
    match rest.head? with
    | none => none
    | some s1 =>
      let newModel := { m with SelectedOperation := some ⟨"", s0, s1⟩ }
      if s0 = "Pipeline Approvals" then
        some ({ newModel with IsLoading := true, LoadingMsg := "Loading approvals..." },
              some (.FetchApprovals m))
      else if s0 = "Pipeline Status" ∨ s0 = "Start Pipeline" then
        some ({ newModel with IsLoading := true, LoadingMsg := "Loading pipelines..." },
              some (.FetchPipelineStatus m))
      else some (m, none)

/-- The loop of `HandleApprovalSelection`: the first approval whose pipeline,
stage and action equal `selected[0]`, `selected[1]`, `selected[2]`, the three
comparisons short-circuiting left to right; `none` is the panic of an index out
of range, `some none` the loop ending without a match. -/
def approvalLoop (selected : Row) (s0 : String) :
    List ApprovalAction → Option (Option ApprovalAction)
  | [] => some none
  | approval :: rest =>
    if approval.PipelineName = s0 then
      match selected[1]? with
      | none => none
      | some s1 =>
        if approval.StageName = s1 then
          match selected[2]? with
          | none => none
          | some s2 =>
            if approval.ActionName = s2 then some (some approval)
            else approvalLoop selected s0 rest
        else approvalLoop selected s0 rest
    else approvalLoop selected s0 rest

/-- `HandleApprovalSelection`. -/
def HandleApprovalSelection (m : Model) : Option Step :=
  match SelectedRow m.Table with
  | [] => some (m, none)
  | s0 :: rest =>
    match approvalLoop (s0 :: rest) s0 m.Approvals.elems with
    | none => none
    | some none => some (m, none)
    | some (some approval) =>
      some (UpdateTableForView
        { m with SelectedApproval := some approval, CurrentView := ViewConfirmation }, none)

/-- `HandleConfirmationSelection`. -/
def HandleConfirmationSelection (C : Core) (m : Model) : Option Step :=
  match SelectedRow m.Table with
  | [] => some (m, none)
  | s0 :: _ =>
    if s0 = "Approve" then
      some (UpdateTableForView
        { m with ApproveAction := true, CurrentView := ViewSummary, ManualInput := true,
                 TextInput := C.SetTextInputForApproval true m.TextInput,
                 ApprovalComment := "" }, none)
    else if s0 = "Reject" then
      some (UpdateTableForView
        { m with ApproveAction := false, CurrentView := ViewSummary, ManualInput := true,
                 TextInput := C.SetTextInputForApproval false m.TextInput,
                 ApprovalComment := "" }, none)
    else some (UpdateTableForView m, none)

/-- `HandleSummaryConfirmation`. -/
def HandleSummaryConfirmation (m : Model) : Option Step :=
  match m.SelectedApproval with
  | some _ =>
    if TrimSpace m.TextInput.Value = "" then
      some ({ m with TextInput := m.TextInput.Focus }, none)
    else
      some (UpdateTableForView
        { m with ApprovalComment := m.TextInput.Value, CurrentView := ViewExecutingAction,
                 ManualInput := false }, none)
  | none =>
    if operationIs m "Start Pipeline" then
      if m.ManualInput ∧ TrimSpace m.TextInput.Value = "" then
        some ({ m with TextInput := m.TextInput.Focus }, none)
      else
        let newModel :=
          if m.ManualInput then
            { m with CommitID := m.TextInput.Value, ManualCommitID := true }
          else m
        some (UpdateTableForView
          { newModel with CurrentView := ViewExecutingAction, ManualInput := false }, none)
    else some (m, none)

/-- `HandleExecutionSelection`. -/
def HandleExecutionSelection (C : Core) (m : Model) : Option Step :=
  match SelectedRow m.Table with
  | [] => some (m, none)
  | s0 :: _ =>
    if s0 = "Execute" then
      if operationIs m "Start Pipeline" then
        some ({ m with IsLoading := true, LoadingMsg := "Starting pipeline..." },
              some (.ExecutePipeline m))
      else if m.SelectedApproval.isSome then
        some ({ m with IsLoading := true, LoadingMsg := "Executing approval action..." },
              some (.ExecuteApproval m))
      else some (m, none)
    else if s0 = "Cancel" then some (C.NavigateBack m, none)
    else some (m, none)

/-- `HandleEnter`: the confirm event. -/
def HandleEnter (C : Core) (m : Model) : Option Step :=
  if m.CurrentView = ViewAWSConfig ∧ m.ManualInput then
    let value := TrimSpace m.TextInput.Value
    if value = "" then
      some (UpdateTableForView { m with ManualInput := false }.ResetTextInput, none)
    else if m.AwsProfile = "" then
      some (UpdateTableForView
        { m with AwsProfile := value, ManualInput := false }.ResetTextInput, none)
    else
      some (UpdateTableForView
        { { m with AwsRegion := value, ManualInput := false }.ResetTextInput with
          CurrentView := ViewSelectService }, none)
  else
    match m.CurrentView with
    | ViewProviders => HandleProviderSelection m
    | ViewAWSConfig => HandleAWSConfigSelection m
    | ViewSelectService => HandleServiceSelection m
    | ViewSelectCategory => HandleCategorySelection m
    | ViewSelectOperation => HandleOperationSelection m
    | ViewApprovals => HandleApprovalSelection m
    | ViewConfirmation => HandleConfirmationSelection C m
    | ViewSummary =>
      if !m.ManualInput ∧ operationIs m "Start Pipeline" then
        match SelectedRow m.Table with
        | [] => HandleSummaryConfirmation m
        | s0 :: _ =>
          if s0 = "Latest Commit" then
            some (UpdateTableForView
              { m with CurrentView := ViewExecutingAction, Summary := "" }, none)
          else if s0 = "Manual Input" then
            some ({ m with ManualInput := true,
                           TextInput := { m.TextInput.Focus with
                                          Placeholder := "Enter commit ID..." } }, none)
          else HandleSummaryConfirmation m
      else HandleSummaryConfirmation m
    | ViewExecutingAction => HandleExecutionSelection C m
    | ViewPipelineStatus =>
      match SelectedRow m.Table with
      | [] => some (m, none)
      | s0 :: _ =>
        match m.Pipelines.elems.find? (fun pipeline => decide (pipeline.Name = s0)) with
        | none => some (m, none)
        | some pipeline =>
          if operationIs m "Start Pipeline" then
            some (UpdateTableForView
              { m with CurrentView := ViewExecutingAction,
                       SelectedPipeline := some pipeline }, none)
          else
            some (UpdateTableForView
              { m with CurrentView := ViewPipelineStages,
                       SelectedPipeline := some pipeline }, none)
    | ViewPipelineStages => some (m, none)

/-! ## Auxiliary definitions used by the statements -/

/-- The model with the loading flag raised. -/
def withLoading (m : Model) : Model := { m with IsLoading := true }

/-- The same task, its captured model transformed by `f`. -/
def Cmd.mapModel (f : Model → Model) : Cmd → Cmd
  | .FetchApprovals m => .FetchApprovals (f m)
  | .FetchPipelineStatus m => .FetchPipelineStatus (f m)
  | .ExecuteApproval m => .ExecuteApproval (f m)
  | .ExecutePipeline m => .ExecutePipeline (f m)

/-- A handler result with the loading flag raised in the returned model and in
the model the task captured. -/
def Step.withLoading (r : Step) : Step :=
  (Ciselect.withLoading r.1, r.2.map (Cmd.mapModel Ciselect.withLoading))

/-- The invariant of section 8: a region is set only when a profile is. -/
def profileBeforeRegion (m : Model) : Prop := m.AwsRegion ≠ "" → m.AwsProfile ≠ ""

instance (m : Model) : Decidable (profileBeforeRegion m) :=
  inferInstanceAs (Decidable (m.AwsRegion ≠ "" → m.AwsProfile ≠ ""))

/-- A `Core` whose functions change nothing. -/
def idCore : Core := ⟨fun _ t => t, fun m => m⟩

/-- A start-up model: the Providers screen, nothing selected or fetched. -/
def initialModel : Model :=
  { CurrentView := ViewProviders, ManualInput := false, TextInput := ⟨"", "", false⟩,
    Table := ⟨[], [], 0, false, 0, 0⟩, Styles := 0, AwsProfile := "", AwsRegion := "",
    Profiles := none, Regions := none, SelectedService := none, SelectedCategory := none,
    SelectedOperation := none, Approvals := none, Pipelines := none, SelectedApproval := none,
    SelectedPipeline := none, ApproveAction := false, ApprovalComment := "", CommitID := "",
    ManualCommitID := false, Summary := "", IsLoading := false, LoadingMsg := "" }

/-- The model on screen `v` with the catalog's table for that screen and the
cursor on row `i`. -/
def onScreen (m : Model) (v : View) (i : Nat) : Model :=
  let m1 := UpdateTableForView { m with CurrentView := v }
  { m1 with Table := { m1.Table with cursor := i } }

/-- The model with `s` typed into the text input. -/
def typing (m : Model) (s : String) : Model :=
  { m with TextInput := { m.TextInput with value := s } }

/-- Loading in progress, SelectOperation screen of the Workflows category, the
cursor on the first row `Pipeline Approvals`. -/
def loadingModel : Model :=
  onScreen { initialModel with AwsProfile := "dev", AwsRegion := "us-west-2",
                               SelectedCategory := some ⟨"", "Workflows", "", true⟩,
                               IsLoading := true, LoadingMsg := "Loading approvals..." }
    ViewSelectOperation 0

/-- AWSConfig in manual mode, no profile yet, ` dev ` typed. -/
def manualProfileModel : Model :=
  typing { onScreen initialModel ViewAWSConfig 0 with ManualInput := true } " dev "

/-- AWSConfig in manual mode, profile `dev` set, `us-east-1` and a trailing
blank typed. -/
def manualRegionModel : Model :=
  typing { onScreen { initialModel with AwsProfile := "dev" } ViewAWSConfig 0 with
           ManualInput := true } "us-east-1 "


/-- A pending approval `(p1, s1, a1)`. -/
def approvalP1 : ApprovalAction := ⟨"p1", "s1", "a1", "token-1"⟩

/-- Summary in manual mode for the approval `approvalP1`, `LGTM` typed between
two blanks. -/
def summaryApprovalModel : Model :=
  typing { onScreen { initialModel with AwsProfile := "dev", AwsRegion := "us-west-2",
                                        Approvals := some [approvalP1],
                                        SelectedApproval := some approvalP1,
                                        ApproveAction := true }
             ViewSummary 0 with ManualInput := true } " LGTM "

/-- A fetched pipeline `P` with no stages. -/
def pipelineP : PipelineStatus := ⟨"P", []⟩

/-- The operation `Start Pipeline` as `HandleOperationSelection` records it. -/
def startPipelineOp : Operation := ⟨"", "Start Pipeline", "Trigger Pipeline Execution"⟩

/-- Summary of a Start Pipeline run, table mode, the cursor on `Latest Commit`,
while the model still holds the commit `abc123` of an earlier manual entry
(`manualCommitID = true`). -/
def staleCommitModel : Model :=
  onScreen { initialModel with AwsProfile := "dev", AwsRegion := "us-west-2",
                               SelectedOperation := some startPipelineOp,
                               Pipelines := some [pipelineP],
                               SelectedPipeline := some pipelineP,
                               CommitID := "abc123", ManualCommitID := true }
    ViewSummary 0

/-- An `aws` package whose every call succeeds. -/
def okAws : Aws :=
  { New := fun _ _ => .ok ⟨0⟩,
    GetPendingApprovals := fun _ => .ok (some [approvalP1]),
    GetPipelineStatus := fun _ => .ok (some [pipelineP]),
    PutApprovalResult := fun _ _ _ _ => none,
    StartPipelineExecution := fun _ _ _ => none }

/-- SelectOperation with a table whose highlighted row names an operation that
is none of the three dispatched ones; no operation selected so far. -/
def otherOperationModel : Model :=
  { onScreen { initialModel with AwsProfile := "dev", AwsRegion := "us-west-2" }
      ViewSelectOperation 0 with
    Table := ⟨[⟨"Operation", 30⟩, ⟨"Description", 50⟩],
              [["Deploy", "Deploy something"]], 0, true, 6, 0⟩ }

/-- SelectOperation of the Workflows category, the cursor on the third row
`Start Pipeline`. -/
def workflowsModel : Model :=
  onScreen { initialModel with AwsProfile := "dev", AwsRegion := "us-west-2",
                               SelectedCategory := some ⟨"", "Workflows", "", true⟩ }
    ViewSelectOperation 2

/-- Whether an approval has the (pipeline, stage, action) triple `(a, b, c)`. -/
def hasTriple (a b c : String) (x : ApprovalAction) : Bool :=
  decide (x.PipelineName = a ∧ x.StageName = b ∧ x.ActionName = c)

/-- A second pending approval `(p2, s2, a2)`. -/
def approvalP2 : ApprovalAction := ⟨"p2", "s2", "a2", "token-2"⟩

/-- Approvals screen after a fetch of two approvals, the cursor on the second
row. -/
def approvalsModel : Model :=
  onScreen { initialModel with AwsProfile := "dev", AwsRegion := "us-west-2",
                               Approvals := some [approvalP1, approvalP2] }
    ViewApprovals 1

/-- Confirmation for the approval `approvalP1`, the cursor on `Reject`, a
comment left from an earlier round. -/
def confirmationModel : Model :=
  onScreen { initialModel with AwsProfile := "dev", AwsRegion := "us-west-2",
                               Approvals := some [approvalP1],
                               SelectedApproval := some approvalP1,
                               ApproveAction := true, ApprovalComment := "old" }
    ViewConfirmation 1

/-- Summary of a Start Pipeline run in manual mode, no approval selected,
`abc123` typed after a blank. -/
def manualCommitModel : Model :=
  typing { onScreen { initialModel with AwsProfile := "dev", AwsRegion := "us-west-2",
                                        SelectedOperation := some startPipelineOp,
                                        Pipelines := some [pipelineP],
                                        SelectedPipeline := some pipelineP }
             ViewSummary 1 with ManualInput := true } " abc123"

/-- ExecutingAction of an approval (`approvalP1`, approve, comment `LGTM`), the
cursor on `Execute`. -/
def executeApprovalModel : Model :=
  onScreen { initialModel with AwsProfile := "dev", AwsRegion := "us-west-2",
                               Approvals := some [approvalP1],
                               SelectedApproval := some approvalP1,
                               ApproveAction := true, ApprovalComment := "LGTM" }
    ViewExecutingAction 0

/-- PipelineStatus after a fetch of two pipelines of the same name `P` (the
second with one stage), operation Pipeline Status, the cursor on the second
row. -/
def pipelineStatusModel : Model :=
  onScreen { initialModel with AwsProfile := "dev", AwsRegion := "us-west-2",
                               SelectedOperation :=
                                 some ⟨"", "Pipeline Status", "View Pipeline Status"⟩,
                               Pipelines :=
                                 some [pipelineP, ⟨"P", [⟨"Build", "Succeeded", "now"⟩]⟩] }
    ViewPipelineStatus 1

/-- AWSConfig in table mode with profiles `dev`, `prod`, no profile chosen yet,
the cursor on the row `prod`. -/
def profileTableModel : Model :=
  onScreen { initialModel with Profiles := some ["dev", "prod"],
                               Regions := some ["us-west-2"] }
    ViewAWSConfig 2

/-- The screens, other than AWSConfig and Summary, whose confirm reads the
highlighted row. -/
def rowScreens : List View :=
  [ViewProviders, ViewSelectService, ViewSelectCategory, ViewSelectOperation, ViewApprovals,
   ViewConfirmation, ViewExecutingAction, ViewPipelineStatus]

/-- Summary of a Start Pipeline run in table mode with no pipeline selected:
the catalog gives the screen no rows. -/
def noPipelineSummaryModel : Model :=
  onScreen { initialModel with AwsProfile := "dev", AwsRegion := "us-west-2",
                               SelectedOperation := some startPipelineOp }
    ViewSummary 0

/-- ExecutingAction of a Start Pipeline run with no pipeline selected, the
cursor on `Execute`. -/
def noPipelineExecuteModel : Model :=
  onScreen { initialModel with AwsProfile := "dev", AwsRegion := "us-west-2",
                               SelectedOperation := some startPipelineOp }
    ViewExecutingAction 0

/-- Approvals screen after a fetch that returned no approvals. -/
def emptyApprovalsModel : Model :=
  onScreen { initialModel with AwsProfile := "dev", AwsRegion := "us-west-2",
                               Approvals := some [] }
    ViewApprovals 0

/-- An `aws` package whose adapter constructor fails. -/
def failAws : Aws :=
  { okAws with New := fun _ _ => .error "no credentials" }

/-- The number of columns stated per screen: 1 for AWSConfig, 3 for Approvals
and PipelineStages, 2 for every other screen. -/
def columnCount : View → Nat
  | ViewAWSConfig => 1
  | ViewApprovals => 3
  | ViewPipelineStages => 3
  | _ => 2

/-- AWSConfig with a profile chosen and no regions supplied (nil list). -/
def noRegionsModel : Model :=
  onScreen { initialModel with AwsProfile := "dev", Profiles := some ["dev"] } ViewAWSConfig 0

/-- Two approvals with the same (pipeline, stage, action) triple. -/
def sameTriple (x y : ApprovalAction) : Prop :=
  x.PipelineName = y.PipelineName ∧ x.StageName = y.StageName ∧ x.ActionName = y.ActionName

instance (x y : ApprovalAction) : Decidable (sameTriple x y) :=
  inferInstanceAs (Decidable (x.PipelineName = y.PipelineName ∧
    x.StageName = y.StageName ∧ x.ActionName = y.ActionName))

/-- A pending approval with the triple of `approvalP1` and another token. -/
def approvalP1b : ApprovalAction := ⟨"p1", "s1", "a1", "token-1b"⟩

/-- Approvals screen after a fetch of two approvals that share their triple
and differ in token, the cursor on the second row. -/
def twinApprovalsModel : Model :=
  onScreen { initialModel with AwsProfile := "dev", AwsRegion := "us-west-2",
                               Approvals := some [approvalP1, approvalP1b] }
    ViewApprovals 1

/-! # Theorems -/

/-! ## The loading flag -/

theorem withLoading_Table (m : Model) : (withLoading m).Table = m.Table := rfl

theorem HandleProviderSelection_withLoading (m : Model) :
    HandleProviderSelection (withLoading m) =
      (HandleProviderSelection m).map Step.withLoading := by
  unfold HandleProviderSelection
  rw [withLoading_Table]
  repeat' split
  all_goals rfl

theorem HandleAWSConfigSelection_withLoading (m : Model) :
    HandleAWSConfigSelection (withLoading m) =
      (HandleAWSConfigSelection m).map Step.withLoading := by
  unfold HandleAWSConfigSelection
  rw [withLoading_Table]
  have hp : (withLoading m).AwsProfile = m.AwsProfile := rfl
  simp only [hp]
  repeat' split
  all_goals rfl

theorem HandleServiceSelection_withLoading (m : Model) :
    HandleServiceSelection (withLoading m) =
      (HandleServiceSelection m).map Step.withLoading := by
  unfold HandleServiceSelection
  rw [withLoading_Table]
  repeat' split
  all_goals rfl

theorem HandleCategorySelection_withLoading (m : Model) :
    HandleCategorySelection (withLoading m) =
      (HandleCategorySelection m).map Step.withLoading := by
  unfold HandleCategorySelection
  rw [withLoading_Table]
  repeat' split
  all_goals rfl

theorem HandleOperationSelection_withLoading (m : Model) :
    HandleOperationSelection (withLoading m) =
      (HandleOperationSelection m).map Step.withLoading := by
  unfold HandleOperationSelection
  rw [withLoading_Table]
  repeat' split
  all_goals rfl

theorem HandleApprovalSelection_withLoading (m : Model) :
    HandleApprovalSelection (withLoading m) =
      (HandleApprovalSelection m).map Step.withLoading := by
  unfold HandleApprovalSelection
  rw [withLoading_Table]
  have hp : (withLoading m).Approvals = m.Approvals := rfl
  simp only [hp]
  split
  · rfl
  · split <;> rfl

theorem HandleConfirmationSelection_withLoading (C : Core) (m : Model) :
    HandleConfirmationSelection C (withLoading m) =
      (HandleConfirmationSelection C m).map Step.withLoading := by
  unfold HandleConfirmationSelection
  rw [withLoading_Table]
  repeat' split
  all_goals rfl

theorem HandleSummaryConfirmation_withLoading (m : Model) :
    HandleSummaryConfirmation (withLoading m) =
      (HandleSummaryConfirmation m).map Step.withLoading := by
  unfold HandleSummaryConfirmation
  have h1 : (withLoading m).SelectedApproval = m.SelectedApproval := rfl
  have h2 : (withLoading m).TextInput = m.TextInput := rfl
  have h3 : (withLoading m).ManualInput = m.ManualInput := rfl
  have h4 : operationIs (withLoading m) "Start Pipeline" = operationIs m "Start Pipeline" := rfl
  simp only [h1, h2, h3, h4]
  repeat' split
  all_goals rfl

theorem HandleExecutionSelection_withLoading (C : Core) (m : Model)
    (hback : C.NavigateBack (withLoading m) = withLoading (C.NavigateBack m)) :
    HandleExecutionSelection C (withLoading m) =
      (HandleExecutionSelection C m).map Step.withLoading := by
  unfold HandleExecutionSelection
  rw [withLoading_Table, hback]
  have h1 : (withLoading m).SelectedApproval = m.SelectedApproval := rfl
  have h4 : operationIs (withLoading m) "Start Pipeline" = operationIs m "Start Pipeline" := rfl
  simp only [h1, h4]
  repeat' split
  all_goals rfl

theorem HandleEnter_withLoading (C : Core) (m : Model)
    (hback : C.NavigateBack (withLoading m) = withLoading (C.NavigateBack m)) :
    HandleEnter C (withLoading m) = (HandleEnter C m).map Step.withLoading := by
  unfold HandleEnter
  have h0 : (withLoading m).CurrentView = m.CurrentView := rfl
  have h1 : (withLoading m).Table = m.Table := rfl
  have h2 : (withLoading m).TextInput = m.TextInput := rfl
  have h3 : (withLoading m).ManualInput = m.ManualInput := rfl
  have h4 : operationIs (withLoading m) "Start Pipeline" = operationIs m "Start Pipeline" := rfl
  have h5 : (withLoading m).AwsProfile = m.AwsProfile := rfl
  have h6 : (withLoading m).Pipelines = m.Pipelines := rfl
  simp only [h0, h1, h2, h3, h4, h5, h6, HandleProviderSelection_withLoading,
    HandleAWSConfigSelection_withLoading, HandleServiceSelection_withLoading,
    HandleCategorySelection_withLoading, HandleOperationSelection_withLoading,
    HandleApprovalSelection_withLoading, HandleConfirmationSelection_withLoading,
    HandleSummaryConfirmation_withLoading, HandleExecutionSelection_withLoading C m hback]
  repeat' split
  all_goals rfl

/-- C1 (amended): `HandleEnter` has no loading guard, it never reads
`isLoading`. For every model with `isLoading = true`, confirm does what it does
on the same model with `isLoading = false` (same screen change, same field
updates, same task), and the returned model and the model captured by the task
still have `isLoading = true`; `back`, to which the Cancel row delegates, is
assumed not to read the flag either. -/
theorem HandleEnter_ignores_loading (C : Core) (m : Model) (h : m.IsLoading = true)
    (hback : ∀ x : Model, C.NavigateBack (withLoading x) = withLoading (C.NavigateBack x)) :
    HandleEnter C m = (HandleEnter C { m with IsLoading := false }).map Step.withLoading := by
  have hm : m = withLoading { m with IsLoading := false } := by
    cases m
    simp only [withLoading] at h ⊢
    simp [h]
  conv_lhs => rw [hm]
  exact HandleEnter_withLoading C _ (hback _)

theorem HandleEnter_ignores_loading_witness :
    loadingModel.IsLoading = true ∧
    HandleEnter idCore loadingModel =
      (HandleEnter idCore { loadingModel with IsLoading := false }).map Step.withLoading :=
  ⟨rfl, HandleEnter_ignores_loading idCore loadingModel rfl (fun _ => rfl)⟩

/-- C1 (as stated) fails: with `isLoading = true` on SelectOperation, the cursor
on `Pipeline Approvals`, confirm records the operation, rewrites the loading
message and emits the FetchApprovals task. -/
theorem HandleEnter_loading_counterexample :
    loadingModel.IsLoading = true ∧
    SelectedRow loadingModel.Table = ["Pipeline Approvals", "Manage Pipeline Approvals"] ∧
    HandleEnter idCore loadingModel ≠ some (loadingModel, none) ∧
    (HandleEnter idCore loadingModel).map Prod.snd =
      some (some (Cmd.FetchApprovals loadingModel)) := by
  refine ⟨rfl, rfl, ?_, rfl⟩
  decide

/-! ## AWSConfig: the manual-input override -/

/-- C2 (amended): on AWSConfig with `manualInput = true`, confirm's result does
not depend on the table and emits no task; it clears `manualInput` and resets
the buffer, and (a) if the trimmed buffer is empty it stays on AWSConfig with
`awsProfile` and `awsRegion` unchanged; (b) else if `awsProfile = ""` it sets
`awsProfile` to the trimmed buffer and stays on AWSConfig; (c) else it sets
`awsRegion` to the trimmed buffer and moves to SelectService. -/
theorem HandleEnter_manual_override (C : Core) (m : Model)
    (hv : m.CurrentView = ViewAWSConfig) (hm : m.ManualInput = true) :
    (∀ t : Table, HandleEnter C { m with Table := t } = HandleEnter C m) ∧
    ∃ r : Model, HandleEnter C m = some (r, none) ∧
      r.ManualInput = false ∧ r.TextInput.Value = "" ∧
      (TrimSpace m.TextInput.Value = "" →
        r.CurrentView = ViewAWSConfig ∧ r.AwsProfile = m.AwsProfile ∧
          r.AwsRegion = m.AwsRegion) ∧
      (TrimSpace m.TextInput.Value ≠ "" → m.AwsProfile = "" →
        r.AwsProfile = TrimSpace m.TextInput.Value ∧ r.CurrentView = ViewAWSConfig) ∧
      (TrimSpace m.TextInput.Value ≠ "" → m.AwsProfile ≠ "" →
        r.AwsRegion = TrimSpace m.TextInput.Value ∧ r.CurrentView = ViewSelectService) := by
  constructor
  · intro t
    unfold HandleEnter
    simp only [hv, hm, and_self, if_true]
    repeat' split
    all_goals rfl
  · rw [HandleEnter, if_pos ⟨hv, hm⟩]
    by_cases h1 : TrimSpace m.TextInput.Value = ""
    · simp only [if_pos h1]
      exact ⟨_, rfl, rfl, rfl, fun _ => ⟨hv, rfl, rfl⟩, fun h => absurd h1 h,
        fun h => absurd h1 h⟩
    · by_cases h2 : m.AwsProfile = ""
      · simp only [if_neg h1, if_pos h2]
        exact ⟨_, rfl, rfl, rfl, fun h => absurd h h1, fun _ _ => ⟨rfl, hv⟩,
          fun _ h => absurd h2 h⟩
      · simp only [if_neg h1, if_neg h2]
        exact ⟨_, rfl, rfl, rfl, fun h => absurd h h1, fun _ h => absurd h h2,
          fun _ _ => ⟨rfl, rfl⟩⟩

theorem HandleEnter_manual_override_witness :
    (∀ t : Table, HandleEnter idCore { manualRegionModel with Table := t } =
      HandleEnter idCore manualRegionModel) ∧
    ∃ r : Model, HandleEnter idCore manualRegionModel = some (r, none) ∧
      r.ManualInput = false ∧ r.TextInput.Value = "" ∧
      (TrimSpace manualRegionModel.TextInput.Value = "" →
        r.CurrentView = ViewAWSConfig ∧ r.AwsProfile = manualRegionModel.AwsProfile ∧
          r.AwsRegion = manualRegionModel.AwsRegion) ∧
      (TrimSpace manualRegionModel.TextInput.Value ≠ "" → manualRegionModel.AwsProfile = "" →
        r.AwsProfile = TrimSpace manualRegionModel.TextInput.Value ∧
          r.CurrentView = ViewAWSConfig) ∧
      (TrimSpace manualRegionModel.TextInput.Value ≠ "" → manualRegionModel.AwsProfile ≠ "" →
        r.AwsRegion = TrimSpace manualRegionModel.TextInput.Value ∧
          r.CurrentView = ViewSelectService) :=
  HandleEnter_manual_override idCore manualRegionModel rfl rfl

/-- C2 (as stated) fails: with ` dev ` typed and no profile set, confirm stores
`dev`, not the buffer. -/
theorem HandleEnter_manual_override_counterexample :
    manualProfileModel.CurrentView = ViewAWSConfig ∧
    manualProfileModel.ManualInput = true ∧
    manualProfileModel.AwsProfile = "" ∧
    manualProfileModel.TextInput.Value = " dev " ∧
    (HandleEnter idCore manualProfileModel).map (fun r => r.1.AwsProfile) = some "dev" ∧
    (HandleEnter idCore manualProfileModel).map (fun r => r.1.AwsProfile) ≠
      some manualProfileModel.TextInput.Value := by
  refine ⟨rfl, rfl, rfl, rfl, rfl, ?_⟩
  decide

/-! ## The invariant `awsRegion ≠ "" ⇒ awsProfile ≠ ""` -/

theorem HandleProviderSelection_aws (m : Model) (r : Step)
    (h : HandleProviderSelection m = some r) :
    r.1.AwsProfile = m.AwsProfile ∧ r.1.AwsRegion = m.AwsRegion := by
  unfold HandleProviderSelection at h
  repeat' split at h
  all_goals (cases h; exact ⟨rfl, rfl⟩)

theorem HandleServiceSelection_aws (m : Model) (r : Step)
    (h : HandleServiceSelection m = some r) :
    r.1.AwsProfile = m.AwsProfile ∧ r.1.AwsRegion = m.AwsRegion := by
  unfold HandleServiceSelection at h
  repeat' split at h
  all_goals (cases h; try exact ⟨rfl, rfl⟩)

theorem HandleCategorySelection_aws (m : Model) (r : Step)
    (h : HandleCategorySelection m = some r) :
    r.1.AwsProfile = m.AwsProfile ∧ r.1.AwsRegion = m.AwsRegion := by
  unfold HandleCategorySelection at h
  repeat' split at h
  all_goals (cases h; try exact ⟨rfl, rfl⟩)

theorem HandleOperationSelection_aws (m : Model) (r : Step)
    (h : HandleOperationSelection m = some r) :
    r.1.AwsProfile = m.AwsProfile ∧ r.1.AwsRegion = m.AwsRegion := by
  unfold HandleOperationSelection at h
  repeat' split at h
  all_goals (cases h; try exact ⟨rfl, rfl⟩)

theorem HandleApprovalSelection_aws (m : Model) (r : Step)
    (h : HandleApprovalSelection m = some r) :
    r.1.AwsProfile = m.AwsProfile ∧ r.1.AwsRegion = m.AwsRegion := by
  unfold HandleApprovalSelection at h
  repeat' split at h
  all_goals (cases h; try exact ⟨rfl, rfl⟩)

theorem HandleConfirmationSelection_aws (C : Core) (m : Model) (r : Step)
    (h : HandleConfirmationSelection C m = some r) :
    r.1.AwsProfile = m.AwsProfile ∧ r.1.AwsRegion = m.AwsRegion := by
  unfold HandleConfirmationSelection at h
  repeat' split at h
  all_goals (cases h; exact ⟨rfl, rfl⟩)

theorem HandleSummaryConfirmation_aws (m : Model) (r : Step)
    (h : HandleSummaryConfirmation m = some r) :
    r.1.AwsProfile = m.AwsProfile ∧ r.1.AwsRegion = m.AwsRegion := by
  unfold HandleSummaryConfirmation at h
  repeat' split at h
  all_goals (cases h; exact ⟨rfl, rfl⟩)

theorem HandleAWSConfigSelection_inv (m : Model) (r : Step)
    (hinv : profileBeforeRegion m) (h : HandleAWSConfigSelection m = some r) :
    profileBeforeRegion r.1 := by
  unfold HandleAWSConfigSelection at h
  split at h
  · cases h; exact hinv
  · split at h
    · split at h <;> (cases h; exact hinv)
    · split at h
      · rename_i hp
        cases h
        intro hr
        exact absurd hp (hinv hr)
      · rename_i hp
        cases h
        intro _
        exact hp

theorem HandleExecutionSelection_inv (C : Core) (m : Model) (r : Step)
    (hinv : profileBeforeRegion m)
    (hback : ∀ x : Model, profileBeforeRegion x → profileBeforeRegion (C.NavigateBack x))
    (h : HandleExecutionSelection C m = some r) :
    profileBeforeRegion r.1 := by
  unfold HandleExecutionSelection at h
  repeat' split at h
  all_goals (cases h; first | exact hinv | exact hback m hinv)

/-- C3: confirm preserves `awsRegion ≠ "" ⇒ awsProfile ≠ ""`, on every screen,
for every highlighted row and text buffer, provided `back` (to which the Cancel
row of ExecutingAction delegates) preserves it; on AWSConfig, where the two
fields are written, confirm always returns. -/
theorem HandleEnter_preserves_profileBeforeRegion (C : Core) (m : Model)
    (hinv : profileBeforeRegion m)
    (hback : ∀ x : Model, profileBeforeRegion x → profileBeforeRegion (C.NavigateBack x)) :
    (∀ r : Step, HandleEnter C m = some r → profileBeforeRegion r.1) ∧
    (m.CurrentView = ViewAWSConfig → ∃ r : Step, HandleEnter C m = some r) := by
  have keep : ∀ r : Step, r.1.AwsProfile = m.AwsProfile ∧ r.1.AwsRegion = m.AwsRegion →
      profileBeforeRegion r.1 := by
    intro r hr
    unfold profileBeforeRegion
    rw [hr.1, hr.2]
    exact hinv
  constructor
  · intro r h
    by_cases hc : m.CurrentView = ViewAWSConfig ∧ m.ManualInput = true
    · rw [HandleEnter, if_pos hc] at h
      by_cases h1 : TrimSpace m.TextInput.Value = ""
      · simp only [if_pos h1] at h
        cases h; exact hinv
      · by_cases h2 : m.AwsProfile = ""
        · simp only [if_neg h1, if_pos h2] at h
          cases h
          intro hr
          exact absurd h2 (hinv hr)
        · simp only [if_neg h1, if_neg h2] at h
          cases h
          intro _
          exact h2
    · rw [HandleEnter, if_neg hc] at h
      split at h
      · exact keep r (HandleProviderSelection_aws m r h)
      · exact HandleAWSConfigSelection_inv m r hinv h
      · exact keep r (HandleServiceSelection_aws m r h)
      · exact keep r (HandleCategorySelection_aws m r h)
      · exact keep r (HandleOperationSelection_aws m r h)
      · exact keep r (HandleApprovalSelection_aws m r h)
      · exact keep r (HandleConfirmationSelection_aws C m r h)
      · repeat' split at h
        all_goals first
          | exact keep r (HandleSummaryConfirmation_aws m r h)
          | (cases h; exact hinv)
      · exact HandleExecutionSelection_inv C m r hinv hback h
      · repeat' split at h
        all_goals (cases h; exact hinv)
      · cases h; exact hinv
  · intro hv
    by_cases hm : m.ManualInput = true
    · rw [HandleEnter, if_pos ⟨hv, hm⟩]
      dsimp only
      split_ifs <;> exact ⟨_, rfl⟩
    · rw [HandleEnter, if_neg (fun hc => hm hc.2), hv]
      dsimp only
      unfold HandleAWSConfigSelection
      split
      · exact ⟨_, rfl⟩
      · dsimp only
        split_ifs <;> exact ⟨_, rfl⟩

theorem HandleEnter_preserves_profileBeforeRegion_witness :
    profileBeforeRegion manualRegionModel ∧
    (∀ r : Step, HandleEnter idCore manualRegionModel = some r → profileBeforeRegion r.1) ∧
    (manualRegionModel.CurrentView = ViewAWSConfig →
      ∃ r : Step, HandleEnter idCore manualRegionModel = some r) :=
  ⟨by decide,
    HandleEnter_preserves_profileBeforeRegion idCore manualRegionModel (by decide)
      (fun _ hx => hx)⟩

/-! ## What is stored from the text buffer -/

/-- C4 (amended): when confirm stores the text buffer (manual mode, trimmed
buffer not empty), on Summary the stored `approvalComment` or `commitID` is the
raw, untrimmed buffer, trimming only deciding emptiness; on AWSConfig the
stored `awsProfile` or `awsRegion` is the trimmed buffer. -/
theorem HandleEnter_stored_buffer (C : Core) (m : Model) (hm : m.ManualInput = true)
    (hne : TrimSpace m.TextInput.Value ≠ "") :
    (m.CurrentView = ViewAWSConfig →
      ∃ r : Model, HandleEnter C m = some (r, none) ∧
        (m.AwsProfile = "" → r.AwsProfile = TrimSpace m.TextInput.Value) ∧
        (m.AwsProfile ≠ "" → r.AwsRegion = TrimSpace m.TextInput.Value)) ∧
    (m.CurrentView = ViewSummary → m.SelectedApproval ≠ none →
      ∃ r : Model, HandleEnter C m = some (r, none) ∧
        r.ApprovalComment = m.TextInput.Value) ∧
    (m.CurrentView = ViewSummary → m.SelectedApproval = none →
      operationIs m "Start Pipeline" = true →
      ∃ r : Model, HandleEnter C m = some (r, none) ∧ r.CommitID = m.TextInput.Value) := by
  refine ⟨fun hv => ?_, fun hv hsa => ?_, fun hv hsa hop => ?_⟩
  · rw [HandleEnter, if_pos ⟨hv, hm⟩]
    by_cases h2 : m.AwsProfile = ""
    · simp only [if_neg hne, if_pos h2]
      exact ⟨_, rfl, fun _ => rfl, fun h => absurd h2 h⟩
    · simp only [if_neg hne, if_neg h2]
      exact ⟨_, rfl, fun h => absurd h h2, fun _ => rfl⟩
  · have hc : ¬(m.CurrentView = ViewAWSConfig ∧ m.ManualInput = true) := by
      rw [hv]; exact fun h => absurd h.1 (by decide)
    rw [HandleEnter, if_neg hc, hv]
    simp only [hm, Bool.not_true, Bool.false_eq_true, false_and, if_false]
    unfold HandleSummaryConfirmation
    cases hs : m.SelectedApproval with
    | none => exact absurd hs hsa
    | some a =>
      simp only [if_neg hne]
      exact ⟨_, rfl, rfl⟩
  · have hc : ¬(m.CurrentView = ViewAWSConfig ∧ m.ManualInput = true) := by
      rw [hv]; exact fun h => absurd h.1 (by decide)
    rw [HandleEnter, if_neg hc, hv]
    simp only [hm, Bool.not_true, Bool.false_eq_true, false_and, if_false]
    unfold HandleSummaryConfirmation
    simp only [hsa, hop, hm, if_true, hne, and_false, if_false]
    exact ⟨_, rfl, rfl⟩

theorem HandleEnter_stored_buffer_witness :
    summaryApprovalModel.ManualInput = true ∧
    TrimSpace summaryApprovalModel.TextInput.Value ≠ "" ∧
    summaryApprovalModel.CurrentView = ViewSummary ∧
    summaryApprovalModel.SelectedApproval ≠ none ∧
    ∃ r : Model, HandleEnter idCore summaryApprovalModel = some (r, none) ∧
      r.ApprovalComment = " LGTM " :=
  ⟨rfl, by decide, rfl, by decide,
    (HandleEnter_stored_buffer idCore summaryApprovalModel rfl (by decide)).2.1 rfl
      (by decide)⟩

/-- C4 (as stated) fails on AWSConfig: with profile `dev` set and `us-east-1`
plus a trailing blank typed, confirm stores the region without the blank. -/
theorem HandleEnter_stored_buffer_counterexample :
    manualRegionModel.CurrentView = ViewAWSConfig ∧
    manualRegionModel.ManualInput = true ∧
    manualRegionModel.TextInput.Value = "us-east-1 " ∧
    (HandleEnter idCore manualRegionModel).map (fun r => r.1.AwsRegion) = some "us-east-1" ∧
    (HandleEnter idCore manualRegionModel).map (fun r => r.1.AwsRegion) ≠
      some manualRegionModel.TextInput.Value := by
  refine ⟨rfl, rfl, rfl, rfl, ?_⟩
  decide

/-! ## Start Pipeline: the commit to run -/

/-- C5 (the code at the failing input): on Summary in table mode for Start
Pipeline, with `commitID = "abc123"` and `manualCommitID = true` left from an
earlier manual entry, confirm on `Latest Commit` moves to ExecutingAction and
clears only the `Summary` string: `commitID` and `manualCommitID` are kept, and
the following confirm on `Execute` emits a task that starts pipeline `P` at
commit `abc123`, not at the latest commit. -/
theorem HandleEnter_latest_commit_keeps_manual_commit :
    staleCommitModel.CurrentView = ViewSummary ∧
    staleCommitModel.ManualInput = false ∧
    operationIs staleCommitModel "Start Pipeline" = true ∧
    SelectedRow staleCommitModel.Table = ["Latest Commit", "Use latest commit from source"] ∧
    ∃ r : Model, HandleEnter idCore staleCommitModel = some (r, none) ∧
      r.CurrentView = ViewExecutingAction ∧ r.Summary = "" ∧
      r.CommitID = "abc123" ∧ r.ManualCommitID = true ∧
      SelectedRow r.Table = ["Execute", "Start pipeline with latest commit"] ∧
      ∃ r2 : Model, HandleEnter idCore r = some (r2, some (.ExecutePipeline r)) ∧
        (Cmd.run okAws (.ExecutePipeline r)).calls =
          [.New "dev" "us-west-2", .StartPipelineExecution ⟨0⟩ "P" "abc123"] :=
  ⟨rfl, rfl, rfl, rfl, _, rfl, rfl, rfl, rfl, rfl, rfl, _, rfl, rfl⟩

/-- C6: the ExecutePipeline task, once the adapter is built and a pipeline is
selected, calls `StartPipelineExecution` exactly once, with the selected
pipeline's name and with the model's `commitID` when `manualCommitID = true`,
with `""` when `manualCommitID = false` whatever `commitID` holds, and posts
the call's error in a `PipelineExecutionMsg`. -/
theorem ExecutePipeline_commit_argument (aws : Aws) (m : Model) (p : PipelineStatus)
    (provider : Provider) (hp : m.SelectedPipeline = some p)
    (hnew : aws.New m.AwsProfile m.AwsRegion = .ok provider) :
    (m.ManualCommitID = true →
      Cmd.run aws (.ExecutePipeline m) =
        ⟨[.New m.AwsProfile m.AwsRegion, .StartPipelineExecution provider p.Name m.CommitID],
          some (.PipelineExecutionMsg (aws.StartPipelineExecution provider p.Name m.CommitID))⟩) ∧
    (m.ManualCommitID = false →
      Cmd.run aws (.ExecutePipeline m) =
        ⟨[.New m.AwsProfile m.AwsRegion, .StartPipelineExecution provider p.Name ""],
          some (.PipelineExecutionMsg (aws.StartPipelineExecution provider p.Name ""))⟩) := by
  constructor <;> intro hmc <;> simp [Cmd.run, ExecutePipeline, hnew, hp, hmc]

theorem ExecutePipeline_commit_argument_witness :
    staleCommitModel.SelectedPipeline = some pipelineP ∧
    okAws.New staleCommitModel.AwsProfile staleCommitModel.AwsRegion = .ok ⟨0⟩ ∧
    (staleCommitModel.ManualCommitID = true →
      Cmd.run okAws (.ExecutePipeline staleCommitModel) =
        ⟨[.New "dev" "us-west-2", .StartPipelineExecution ⟨0⟩ "P" "abc123"],
          some (.PipelineExecutionMsg none)⟩) ∧
    ({ staleCommitModel with ManualCommitID := false }.ManualCommitID = false →
      Cmd.run okAws (.ExecutePipeline { staleCommitModel with ManualCommitID := false }) =
        ⟨[.New "dev" "us-west-2", .StartPipelineExecution ⟨0⟩ "P" ""],
          some (.PipelineExecutionMsg none)⟩) :=
  ⟨rfl, rfl, (ExecutePipeline_commit_argument okAws staleCommitModel pipelineP ⟨0⟩ rfl rfl).1,
    (ExecutePipeline_commit_argument okAws { staleCommitModel with ManualCommitID := false }
      pipelineP ⟨0⟩ rfl rfl).2⟩

/-! ## SelectOperation -/

/-- C7 (amended): on SelectOperation with a highlighted row of at least two
cells `(name, description)`: if `name = "Pipeline Approvals"` confirm records
`selectedOperation = (name, description)`, sets `isLoading = true`,
`loadingMsg = "Loading approvals..."` and emits FetchApprovals; if `name` is
`"Pipeline Status"` or `"Start Pipeline"` it records the operation, sets
`isLoading = true`, `loadingMsg = "Loading pipelines..."` and emits
FetchPipelines; for any other name it returns the model unchanged
(`selectedOperation` is not recorded) with no task. In all cases
`currentScreen` stays SelectOperation. -/
theorem HandleEnter_select_operation (C : Core) (m : Model) (name description : String)
    (rest : Row) (hv : m.CurrentView = ViewSelectOperation)
    (hrow : SelectedRow m.Table = name :: description :: rest) :
    (name = "Pipeline Approvals" →
      HandleEnter C m =
        some ({ m with SelectedOperation := some ⟨"", name, description⟩, IsLoading := true,
                       LoadingMsg := "Loading approvals..." },
              some (.FetchApprovals m))) ∧
    (name = "Pipeline Status" ∨ name = "Start Pipeline" →
      HandleEnter C m =
        some ({ m with SelectedOperation := some ⟨"", name, description⟩, IsLoading := true,
                       LoadingMsg := "Loading pipelines..." },
              some (.FetchPipelineStatus m))) ∧
    (name ≠ "Pipeline Approvals" → name ≠ "Pipeline Status" → name ≠ "Start Pipeline" →
      HandleEnter C m = some (m, none)) ∧
    (∃ r : Step, HandleEnter C m = some r ∧ r.1.CurrentView = ViewSelectOperation) := by
  have hc : ¬(m.CurrentView = ViewAWSConfig ∧ m.ManualInput = true) := by
    rw [hv]; exact fun h => absurd h.1 (by decide)
  have hE : HandleEnter C m = HandleOperationSelection m := by
    rw [HandleEnter, if_neg hc, hv]
  rw [hE]
  unfold HandleOperationSelection
  rw [hrow]
  simp only [List.head?_cons]
  refine ⟨fun h1 => ?_, fun h2 => ?_, fun h1 h2 h3 => ?_, ?_⟩
  · rw [if_pos h1]
  · have h1 : name ≠ "Pipeline Approvals" := by
      rcases h2 with h2 | h2 <;> (rw [h2]; decide)
    rw [if_neg h1, if_pos h2]
  · rw [if_neg h1, if_neg (fun h => h.elim h2 h3)]
  · split_ifs
    · exact ⟨_, rfl, hv⟩
    · exact ⟨_, rfl, hv⟩
    · exact ⟨_, rfl, hv⟩

theorem HandleEnter_select_operation_witness :
    workflowsModel.CurrentView = ViewSelectOperation ∧
    SelectedRow workflowsModel.Table = ["Start Pipeline", "Trigger Pipeline Execution"] ∧
    HandleEnter idCore workflowsModel =
      some ({ workflowsModel with
                SelectedOperation := some ⟨"", "Start Pipeline", "Trigger Pipeline Execution"⟩,
                IsLoading := true, LoadingMsg := "Loading pipelines..." },
            some (.FetchPipelineStatus workflowsModel)) :=
  ⟨rfl, rfl,
    (HandleEnter_select_operation idCore workflowsModel "Start Pipeline"
      "Trigger Pipeline Execution" [] rfl rfl).2.1 (Or.inr rfl)⟩

/-- C7 (as stated) fails: for a row naming another operation, confirm does not
record `selectedOperation`; the model comes back unchanged. -/
theorem HandleEnter_select_operation_counterexample :
    otherOperationModel.CurrentView = ViewSelectOperation ∧
    SelectedRow otherOperationModel.Table = ["Deploy", "Deploy something"] ∧
    HandleEnter idCore otherOperationModel = some (otherOperationModel, none) ∧
    (HandleEnter idCore otherOperationModel).map (fun r => r.1.SelectedOperation) ≠
      some (some ⟨"", "Deploy", "Deploy something"⟩) := by
  refine ⟨rfl, rfl, rfl, ?_⟩
  decide

/-! ## Approvals -/

theorem approvalLoop_three (a b c : String) (l : List ApprovalAction) :
    approvalLoop [a, b, c] a l = some (l.find? (hasTriple a b c)) := by
  induction l with
  | nil => rfl
  | cons x rest ih =>
    unfold approvalLoop
    simp only [List.find?_cons, hasTriple]
    by_cases h1 : x.PipelineName = a
    · by_cases h2 : x.StageName = b
      · by_cases h3 : x.ActionName = c
        · simp [h1, h2, h3]
        · simp [h1, h2, h3]
          simpa [hasTriple] using ih
      · simp [h1, h2]
        simpa [hasTriple] using ih
    · simp [h1]
      simpa [hasTriple] using ih

theorem HandleEnter_approvals_eq (C : Core) (m : Model) (a b c : String)
    (hv : m.CurrentView = ViewApprovals) (hrow : SelectedRow m.Table = [a, b, c]) :
    HandleEnter C m =
      match m.Approvals.elems.find? (hasTriple a b c) with
      | none => some (m, none)
      | some x =>
        some (UpdateTableForView
          { m with SelectedApproval := some x, CurrentView := ViewConfirmation }, none) := by
  have hc : ¬(m.CurrentView = ViewAWSConfig ∧ m.ManualInput = true) := by
    rw [hv]; exact fun h => absurd h.1 (by decide)
  rw [HandleEnter, if_neg hc, hv]
  simp only
  unfold HandleApprovalSelection
  rw [hrow]
  simp only [approvalLoop_three]
  cases m.Approvals.elems.find? (hasTriple a b c) <;> rfl

/-- C8: on Approvals with a highlighted three-cell row `(a, b, c)`: if some
element of `approvals` has that triple, confirm sets `selectedApproval` to the
first such element and moves to Confirmation, with no task; if none has
(`approvals` nil or empty included), confirm returns the model unchanged with
no task. Hence whenever confirm changes `selectedApproval`, the new value is an
element of the (unchanged) `approvals` with the row's triple. -/
theorem HandleEnter_approvals (C : Core) (m : Model) (a b c : String)
    (hv : m.CurrentView = ViewApprovals) (hrow : SelectedRow m.Table = [a, b, c]) :
    ((∃ x ∈ m.Approvals.elems, x.PipelineName = a ∧ x.StageName = b ∧ x.ActionName = c) →
      ∃ x ∈ m.Approvals.elems,
        (x.PipelineName = a ∧ x.StageName = b ∧ x.ActionName = c) ∧
        m.Approvals.elems.find? (hasTriple a b c) = some x ∧
        HandleEnter C m =
          some (UpdateTableForView
            { m with SelectedApproval := some x, CurrentView := ViewConfirmation }, none)) ∧
    ((¬∃ x ∈ m.Approvals.elems, x.PipelineName = a ∧ x.StageName = b ∧ x.ActionName = c) →
      HandleEnter C m = some (m, none)) ∧
    (∃ r : Step, HandleEnter C m = some r ∧ r.1.Approvals = m.Approvals ∧
      (r.1.SelectedApproval ≠ m.SelectedApproval →
        ∃ x ∈ r.1.Approvals.elems, r.1.SelectedApproval = some x ∧
          x.PipelineName = a ∧ x.StageName = b ∧ x.ActionName = c)) := by
  have hE := HandleEnter_approvals_eq C m a b c hv hrow
  cases hf : m.Approvals.elems.find? (hasTriple a b c) with
  | none =>
    rw [hf] at hE
    have hno : ∀ x ∈ m.Approvals.elems,
        ¬(x.PipelineName = a ∧ x.StageName = b ∧ x.ActionName = c) := by
      intro x hx
      have := List.find?_eq_none.mp hf x hx
      simpa [hasTriple] using this
    refine ⟨fun ⟨x, hx, ht⟩ => absurd ht (hno x hx), fun _ => hE,
      ⟨_, hE, rfl, fun hne => absurd rfl hne⟩⟩
  | some x =>
    rw [hf] at hE
    have hx : x ∈ m.Approvals.elems := List.mem_of_find?_eq_some hf
    have ht : x.PipelineName = a ∧ x.StageName = b ∧ x.ActionName = c := by
      have := List.find?_some hf
      simpa [hasTriple] using this
    refine ⟨fun _ => ⟨x, hx, ht, rfl, hE⟩, fun hno => absurd ⟨x, hx, ht⟩ hno,
      ⟨_, hE, rfl, fun _ => ⟨x, hx, rfl, ht⟩⟩⟩

theorem HandleEnter_approvals_witness :
    approvalsModel.CurrentView = ViewApprovals ∧
    SelectedRow approvalsModel.Table = ["p2", "s2", "a2"] ∧
    (∃ x ∈ approvalsModel.Approvals.elems,
      x.PipelineName = "p2" ∧ x.StageName = "s2" ∧ x.ActionName = "a2") ∧
    ∃ x ∈ approvalsModel.Approvals.elems,
      (x.PipelineName = "p2" ∧ x.StageName = "s2" ∧ x.ActionName = "a2") ∧
      approvalsModel.Approvals.elems.find? (hasTriple "p2" "s2" "a2") = some x ∧
      HandleEnter idCore approvalsModel =
        some (UpdateTableForView
          { approvalsModel with SelectedApproval := some x,
                                CurrentView := ViewConfirmation }, none) :=
  have hex : ∃ x ∈ approvalsModel.Approvals.elems,
      x.PipelineName = "p2" ∧ x.StageName = "s2" ∧ x.ActionName = "a2" :=
    ⟨approvalP2, by decide, rfl, rfl, rfl⟩
  ⟨rfl, rfl, hex,
    (HandleEnter_approvals idCore approvalsModel "p2" "s2" "a2" rfl rfl).1 hex⟩

/-! ## Confirmation -/

/-- C9: on Confirmation, a highlighted row `Approve` yields
`approveAction = true` and a row `Reject` yields `approveAction = false`, both
with `currentScreen = Summary`, `manualInput = true`, `approvalComment = ""`,
`selectedApproval` unchanged and no task; for any other row (or none)
`approveAction`, `currentScreen`, `manualInput` and `approvalComment` are
unchanged. -/
theorem HandleEnter_confirmation (C : Core) (m : Model)
    (hv : m.CurrentView = ViewConfirmation) :
    (∀ rest : Row, SelectedRow m.Table = "Approve" :: rest →
      ∃ r : Model, HandleEnter C m = some (r, none) ∧ r.ApproveAction = true ∧
        r.CurrentView = ViewSummary ∧ r.ManualInput = true ∧ r.ApprovalComment = "" ∧
        r.SelectedApproval = m.SelectedApproval) ∧
    (∀ rest : Row, SelectedRow m.Table = "Reject" :: rest →
      ∃ r : Model, HandleEnter C m = some (r, none) ∧ r.ApproveAction = false ∧
        r.CurrentView = ViewSummary ∧ r.ManualInput = true ∧ r.ApprovalComment = "" ∧
        r.SelectedApproval = m.SelectedApproval) ∧
    ((SelectedRow m.Table).head? ≠ some "Approve" →
      (SelectedRow m.Table).head? ≠ some "Reject" →
      ∃ r : Model, HandleEnter C m = some (r, none) ∧ r.ApproveAction = m.ApproveAction ∧
        r.CurrentView = m.CurrentView ∧ r.ManualInput = m.ManualInput ∧
        r.ApprovalComment = m.ApprovalComment) := by
  have hc : ¬(m.CurrentView = ViewAWSConfig ∧ m.ManualInput = true) := by
    rw [hv]; exact fun h => absurd h.1 (by decide)
  have hE : HandleEnter C m = HandleConfirmationSelection C m := by
    rw [HandleEnter, if_neg hc, hv]
  rw [hE]
  unfold HandleConfirmationSelection
  refine ⟨fun rest hrow => ?_, fun rest hrow => ?_, fun h1 h2 => ?_⟩
  · rw [hrow]
    exact ⟨_, rfl, rfl, rfl, rfl, rfl, rfl⟩
  · rw [hrow]
    exact ⟨_, rfl, rfl, rfl, rfl, rfl, rfl⟩
  · cases hrow : SelectedRow m.Table with
    | nil => exact ⟨_, rfl, rfl, rfl, rfl, rfl⟩
    | cons s0 rest =>
      rw [hrow] at h1 h2
      have g1 : s0 ≠ "Approve" := fun h => h1 (by rw [h]; rfl)
      have g2 : s0 ≠ "Reject" := fun h => h2 (by rw [h]; rfl)
      simp only [if_neg g1, if_neg g2]
      exact ⟨_, rfl, rfl, rfl, rfl, rfl⟩

theorem HandleEnter_confirmation_witness :
    confirmationModel.CurrentView = ViewConfirmation ∧
    SelectedRow confirmationModel.Table = ["Reject", "Reject the pipeline stage"] ∧
    confirmationModel.ApprovalComment = "old" ∧
    ∃ r : Model, HandleEnter idCore confirmationModel = some (r, none) ∧
      r.ApproveAction = false ∧ r.CurrentView = ViewSummary ∧ r.ManualInput = true ∧
      r.ApprovalComment = "" ∧ r.SelectedApproval = confirmationModel.SelectedApproval :=
  ⟨rfl, rfl, rfl,
    (HandleEnter_confirmation idCore confirmationModel rfl).2.1
      ["Reject the pipeline stage"] rfl⟩

/-! ## Summary: the approval comment -/

theorem HandleProviderSelection_comment (m : Model) (r : Step)
    (h : HandleProviderSelection m = some r) : r.1.ApprovalComment = m.ApprovalComment := by
  unfold HandleProviderSelection at h
  repeat' split at h
  all_goals (cases h; rfl)

theorem HandleAWSConfigSelection_comment (m : Model) (r : Step)
    (h : HandleAWSConfigSelection m = some r) : r.1.ApprovalComment = m.ApprovalComment := by
  unfold HandleAWSConfigSelection at h
  split at h
  · cases h; rfl
  · dsimp only at h
    split_ifs at h <;> (cases h; rfl)

theorem HandleServiceSelection_comment (m : Model) (r : Step)
    (h : HandleServiceSelection m = some r) : r.1.ApprovalComment = m.ApprovalComment := by
  unfold HandleServiceSelection at h
  repeat' split at h
  all_goals (cases h; try rfl)

theorem HandleCategorySelection_comment (m : Model) (r : Step)
    (h : HandleCategorySelection m = some r) : r.1.ApprovalComment = m.ApprovalComment := by
  unfold HandleCategorySelection at h
  repeat' split at h
  all_goals (cases h; try rfl)

theorem HandleOperationSelection_comment (m : Model) (r : Step)
    (h : HandleOperationSelection m = some r) : r.1.ApprovalComment = m.ApprovalComment := by
  unfold HandleOperationSelection at h
  repeat' split at h
  all_goals (cases h; try rfl)

theorem HandleApprovalSelection_comment (m : Model) (r : Step)
    (h : HandleApprovalSelection m = some r) : r.1.ApprovalComment = m.ApprovalComment := by
  unfold HandleApprovalSelection at h
  repeat' split at h
  all_goals (cases h; try rfl)

theorem HandleConfirmationSelection_comment (C : Core) (m : Model) (r : Step)
    (h : HandleConfirmationSelection C m = some r) :
    r.1.ApprovalComment = m.ApprovalComment ∨ r.1.ApprovalComment = "" := by
  unfold HandleConfirmationSelection at h
  repeat' split at h
  all_goals (cases h; first | exact Or.inl rfl | exact Or.inr rfl)

theorem HandleSummaryConfirmation_comment (m : Model) (r : Step)
    (h : HandleSummaryConfirmation m = some r) :
    r.1.ApprovalComment = m.ApprovalComment ∨
      (TrimSpace m.TextInput.Value ≠ "" ∧ r.1.ApprovalComment = m.TextInput.Value) := by
  unfold HandleSummaryConfirmation at h
  split at h
  · by_cases h1 : TrimSpace m.TextInput.Value = ""
    · rw [if_pos h1] at h
      cases h; exact Or.inl rfl
    · rw [if_neg h1] at h
      cases h; exact Or.inr ⟨h1, rfl⟩
  · dsimp only at h
    split_ifs at h <;> (cases h; exact Or.inl rfl)

theorem HandleExecutionSelection_comment (C : Core) (m : Model) (r : Step)
    (h : HandleExecutionSelection C m = some r) :
    r.1.ApprovalComment = m.ApprovalComment ∨ r.1 = C.NavigateBack m := by
  unfold HandleExecutionSelection at h
  repeat' split at h
  all_goals (cases h; first | exact Or.inl rfl | exact Or.inr rfl)

theorem HandleEnter_comment (C : Core) (m : Model) (r : Step)
    (h : HandleEnter C m = some r) :
    r.1.ApprovalComment = m.ApprovalComment ∨ r.1.ApprovalComment = "" ∨
      r.1 = C.NavigateBack m ∨
      (m.CurrentView = ViewSummary ∧ TrimSpace m.TextInput.Value ≠ "" ∧
        r.1.ApprovalComment = m.TextInput.Value) := by
  by_cases hc : m.CurrentView = ViewAWSConfig ∧ m.ManualInput = true
  · rw [HandleEnter, if_pos hc] at h
    dsimp only at h
    split_ifs at h <;> (cases h; exact Or.inl rfl)
  · rw [HandleEnter, if_neg hc] at h
    split at h
    · exact Or.inl (HandleProviderSelection_comment m r h)
    · exact Or.inl (HandleAWSConfigSelection_comment m r h)
    · exact Or.inl (HandleServiceSelection_comment m r h)
    · exact Or.inl (HandleCategorySelection_comment m r h)
    · exact Or.inl (HandleOperationSelection_comment m r h)
    · exact Or.inl (HandleApprovalSelection_comment m r h)
    · rcases HandleConfirmationSelection_comment C m r h with h1 | h1
      · exact Or.inl h1
      · exact Or.inr (Or.inl h1)
    · rename_i hv
      have hS : ∀ r : Step, HandleSummaryConfirmation m = some r →
          r.1.ApprovalComment = m.ApprovalComment ∨ r.1.ApprovalComment = "" ∨
            r.1 = C.NavigateBack m ∨
            (m.CurrentView = ViewSummary ∧ TrimSpace m.TextInput.Value ≠ "" ∧
              r.1.ApprovalComment = m.TextInput.Value) := by
        intro r hr
        rcases HandleSummaryConfirmation_comment m r hr with h1 | h1
        · exact Or.inl h1
        · exact Or.inr (Or.inr (Or.inr ⟨hv, h1⟩))
      split at h
      · split at h
        · exact hS r h
        · split_ifs at h
          · cases h; exact Or.inl rfl
          · cases h; exact Or.inl rfl
          · exact hS r h
      · exact hS r h
    · rcases HandleExecutionSelection_comment C m r h with h1 | h1
      · exact Or.inl h1
      · exact Or.inr (Or.inr (Or.inl h1))
    · repeat' split at h
      all_goals (cases h; exact Or.inl rfl)
    · cases h; exact Or.inl rfl

/-- C10: on Summary with `manualInput = true` and a selected approval, an
empty trimmed buffer makes no transition (`currentScreen`, `manualInput`,
`approvalComment` unchanged, no task); otherwise confirm sets
`approvalComment` to the buffer, clears `manualInput` and moves to
ExecutingAction. Consequently, on any screen, when confirm changes
`approvalComment` to a non-empty value it is a Summary confirm with a non-empty
trimmed buffer, and the value is the buffer (`back`, to which the Cancel row
delegates, is assumed to keep or clear the comment). -/
theorem HandleEnter_summary_approval (C : Core) (m : Model)
    (hback : ∀ x : Model, (C.NavigateBack x).ApprovalComment = x.ApprovalComment ∨
      (C.NavigateBack x).ApprovalComment = "") :
    (m.CurrentView = ViewSummary → m.ManualInput = true → m.SelectedApproval ≠ none →
      (TrimSpace m.TextInput.Value = "" →
        ∃ r : Model, HandleEnter C m = some (r, none) ∧ r.CurrentView = ViewSummary ∧
          r.ManualInput = true ∧ r.ApprovalComment = m.ApprovalComment) ∧
      (TrimSpace m.TextInput.Value ≠ "" →
        ∃ r : Model, HandleEnter C m = some (r, none) ∧
          r.ApprovalComment = m.TextInput.Value ∧ r.ManualInput = false ∧
          r.CurrentView = ViewExecutingAction)) ∧
    (∀ r : Step, HandleEnter C m = some r → r.1.ApprovalComment ≠ m.ApprovalComment →
      r.1.ApprovalComment ≠ "" →
      m.CurrentView = ViewSummary ∧ TrimSpace m.TextInput.Value ≠ "" ∧
        r.1.ApprovalComment = m.TextInput.Value) := by
  constructor
  · intro hv hm hsa
    have hc : ¬(m.CurrentView = ViewAWSConfig ∧ m.ManualInput = true) := by
      rw [hv]; exact fun h => absurd h.1 (by decide)
    have hE : HandleEnter C m = HandleSummaryConfirmation m := by
      rw [HandleEnter, if_neg hc, hv]
      simp only [hm, Bool.not_true, Bool.false_eq_true, false_and, if_false]
    rw [hE]
    unfold HandleSummaryConfirmation
    cases hs : m.SelectedApproval with
    | none => exact absurd hs hsa
    | some a =>
      constructor
      · intro h1
        simp only [if_pos h1]
        exact ⟨_, rfl, hv, hm, rfl⟩
      · intro h1
        simp only [if_neg h1]
        exact ⟨_, rfl, rfl, rfl, rfl⟩
  · intro r h hne hnonempty
    rcases HandleEnter_comment C m r h with h1 | h1 | h1 | h1
    · exact absurd h1 hne
    · exact absurd h1 hnonempty
    · rw [h1] at hne hnonempty
      rcases hback m with h2 | h2
      · exact absurd h2 hne
      · exact absurd h2 hnonempty
    · exact h1

theorem HandleEnter_summary_approval_witness :
    summaryApprovalModel.CurrentView = ViewSummary ∧
    summaryApprovalModel.ManualInput = true ∧
    summaryApprovalModel.SelectedApproval ≠ none ∧
    TrimSpace summaryApprovalModel.TextInput.Value ≠ "" ∧
    ∃ r : Model, HandleEnter idCore summaryApprovalModel = some (r, none) ∧
      r.ApprovalComment = " LGTM " ∧ r.ManualInput = false ∧
      r.CurrentView = ViewExecutingAction :=
  ⟨rfl, rfl, by decide, by decide,
    ((HandleEnter_summary_approval idCore summaryApprovalModel (fun _ => Or.inl rfl)).1
      rfl rfl (by decide)).2 (by decide)⟩

/-! ## Summary: the manual commit entry -/

/-- C11: on Summary with `manualInput = true`, no selected approval and
operation `Start Pipeline`: if the trimmed buffer is empty confirm makes no
transition (`currentScreen`, `manualInput`, `commitID`, `manualCommitID`
unchanged); otherwise it sets `commitID` to the buffer, `manualCommitID = true`,
clears `manualInput` and moves to ExecutingAction. No task in either case. -/
theorem HandleEnter_summary_manual_commit (C : Core) (m : Model)
    (hv : m.CurrentView = ViewSummary) (hm : m.ManualInput = true)
    (hsa : m.SelectedApproval = none) (hop : operationIs m "Start Pipeline" = true) :
    (TrimSpace m.TextInput.Value = "" →
      ∃ r : Model, HandleEnter C m = some (r, none) ∧ r.CurrentView = m.CurrentView ∧
        r.ManualInput = m.ManualInput ∧ r.CommitID = m.CommitID ∧
        r.ManualCommitID = m.ManualCommitID) ∧
    (TrimSpace m.TextInput.Value ≠ "" →
      ∃ r : Model, HandleEnter C m = some (r, none) ∧ r.CommitID = m.TextInput.Value ∧
        r.ManualCommitID = true ∧ r.ManualInput = false ∧
        r.CurrentView = ViewExecutingAction) := by
  have hc : ¬(m.CurrentView = ViewAWSConfig ∧ m.ManualInput = true) := by
    rw [hv]; exact fun h => absurd h.1 (by decide)
  have hE : HandleEnter C m = HandleSummaryConfirmation m := by
    rw [HandleEnter, if_neg hc, hv]
    simp only [hm, Bool.not_true, Bool.false_eq_true, false_and, if_false]
  rw [hE]
  unfold HandleSummaryConfirmation
  simp only [hsa, hop, hm, if_true, true_and]
  constructor
  · intro h1
    simp only [if_pos h1]
    exact ⟨_, rfl, rfl, rfl, rfl, rfl⟩
  · intro h1
    simp only [if_neg h1]
    exact ⟨_, rfl, rfl, rfl, rfl, rfl⟩

theorem HandleEnter_summary_manual_commit_witness :
    manualCommitModel.CurrentView = ViewSummary ∧
    manualCommitModel.ManualInput = true ∧
    manualCommitModel.SelectedApproval = none ∧
    operationIs manualCommitModel "Start Pipeline" = true ∧
    TrimSpace manualCommitModel.TextInput.Value ≠ "" ∧
    ∃ r : Model, HandleEnter idCore manualCommitModel = some (r, none) ∧
      r.CommitID = " abc123" ∧ r.ManualCommitID = true ∧ r.ManualInput = false ∧
      r.CurrentView = ViewExecutingAction :=
  ⟨rfl, rfl, rfl, rfl, by decide,
    (HandleEnter_summary_manual_commit idCore manualCommitModel rfl rfl rfl rfl).2
      (by decide)⟩

/-! ## ExecutingAction -/

/-- C12: on ExecutingAction with the row `Execute`: if the operation is
`Start Pipeline` (whether or not an approval is selected) confirm returns the
model with only `isLoading = true` and `loadingMsg = "Starting pipeline..."`
changed and emits ExecutePipeline; otherwise, if an approval is selected, it
returns the model with only `isLoading = true` and
`loadingMsg = "Executing approval action..."` changed and emits
ExecuteApproval; otherwise it returns the model unchanged with no task. -/
theorem HandleEnter_execute (C : Core) (m : Model) (rest : Row)
    (hv : m.CurrentView = ViewExecutingAction)
    (hrow : SelectedRow m.Table = "Execute" :: rest) :
    (operationIs m "Start Pipeline" = true →
      HandleEnter C m =
        some ({ m with IsLoading := true, LoadingMsg := "Starting pipeline..." },
              some (.ExecutePipeline m))) ∧
    (operationIs m "Start Pipeline" = false → m.SelectedApproval ≠ none →
      HandleEnter C m =
        some ({ m with IsLoading := true, LoadingMsg := "Executing approval action..." },
              some (.ExecuteApproval m))) ∧
    (operationIs m "Start Pipeline" = false → m.SelectedApproval = none →
      HandleEnter C m = some (m, none)) := by
  have hc : ¬(m.CurrentView = ViewAWSConfig ∧ m.ManualInput = true) := by
    rw [hv]; exact fun h => absurd h.1 (by decide)
  have hE : HandleEnter C m = HandleExecutionSelection C m := by
    rw [HandleEnter, if_neg hc, hv]
  rw [hE]
  unfold HandleExecutionSelection
  rw [hrow]
  simp only [if_true]
  refine ⟨fun h1 => ?_, fun h1 h2 => ?_, fun h1 h2 => ?_⟩
  · rw [if_pos h1]
  · cases hs : m.SelectedApproval with
    | none => exact absurd hs h2
    | some a => simp [h1]
  · simp [h1, h2]

theorem HandleEnter_execute_witness :
    executeApprovalModel.CurrentView = ViewExecutingAction ∧
    SelectedRow executeApprovalModel.Table = ["Execute", "Execute approve action"] ∧
    operationIs executeApprovalModel "Start Pipeline" = false ∧
    executeApprovalModel.SelectedApproval ≠ none ∧
    HandleEnter idCore executeApprovalModel =
      some ({ executeApprovalModel with
                IsLoading := true, LoadingMsg := "Executing approval action..." },
            some (.ExecuteApproval executeApprovalModel)) :=
  ⟨rfl, rfl, rfl, by decide,
    (HandleEnter_execute idCore executeApprovalModel ["Execute approve action"] rfl rfl).2.1
      rfl (by decide)⟩

/-! ## PipelineStatus -/

/-- C13: on PipelineStatus with a highlighted row whose first cell is `n`: if
some element of `pipelines` is named `n`, confirm sets `selectedPipeline` to
the first such element and moves to ExecutingAction when the operation is
`Start Pipeline`, to PipelineStages otherwise (no operation selected
included); if no element is named `n` (`pipelines` nil or empty included) the
model is returned unchanged. No task is emitted. -/
theorem HandleEnter_pipeline_status (C : Core) (m : Model) (n : String) (rest : Row)
    (hv : m.CurrentView = ViewPipelineStatus) (hrow : SelectedRow m.Table = n :: rest) :
    ((∃ p ∈ m.Pipelines.elems, p.Name = n) →
      ∃ (p : PipelineStatus) (before after : List PipelineStatus),
        m.Pipelines.elems = before ++ p :: after ∧ (∀ q ∈ before, q.Name ≠ n) ∧
        p.Name = n ∧
        HandleEnter C m =
          some (UpdateTableForView
            { m with CurrentView := (if operationIs m "Start Pipeline" = true
                                     then ViewExecutingAction else ViewPipelineStages),
                     SelectedPipeline := some p }, none)) ∧
    ((¬∃ p ∈ m.Pipelines.elems, p.Name = n) → HandleEnter C m = some (m, none)) ∧
    (m.SelectedOperation = none → operationIs m "Start Pipeline" = false) := by
  have hc : ¬(m.CurrentView = ViewAWSConfig ∧ m.ManualInput = true) := by
    rw [hv]; exact fun h => absurd h.1 (by decide)
  have hE : HandleEnter C m =
      match m.Pipelines.elems.find? (fun pipeline => decide (pipeline.Name = n)) with
      | none => some (m, none)
      | some pipeline =>
        if operationIs m "Start Pipeline" then
          some (UpdateTableForView
            { m with CurrentView := ViewExecutingAction,
                     SelectedPipeline := some pipeline }, none)
        else
          some (UpdateTableForView
            { m with CurrentView := ViewPipelineStages,
                     SelectedPipeline := some pipeline }, none) := by
    rw [HandleEnter, if_neg hc, hv]
    simp only
    rw [hrow]
  refine ⟨fun hex => ?_, fun hno => ?_, fun hso => ?_⟩
  · cases hf : m.Pipelines.elems.find? (fun pipeline => decide (pipeline.Name = n)) with
    | none =>
      obtain ⟨p, hp, hn⟩ := hex
      have := List.find?_eq_none.mp hf p hp
      simp [hn] at this
    | some p =>
      rw [hf] at hE
      obtain ⟨hpn, before, after, hsplit, hbefore⟩ := List.find?_eq_some.mp hf
      refine ⟨p, before, after, hsplit, fun q hq => ?_, by simpa using hpn, ?_⟩
      · have := hbefore q hq
        simpa using this
      · rw [hE]
        by_cases hop : operationIs m "Start Pipeline" = true
        · simp only [hop, if_true]
        · simp only [hop, if_false]
          rfl
  · cases hf : m.Pipelines.elems.find? (fun pipeline => decide (pipeline.Name = n)) with
    | none => rw [hf] at hE; exact hE
    | some p =>
      have hpn : p.Name = n := by simpa using List.find?_some hf
      exact absurd ⟨p, List.mem_of_find?_eq_some hf, hpn⟩ hno
  · unfold operationIs
    rw [hso]

theorem HandleEnter_pipeline_status_witness :
    pipelineStatusModel.CurrentView = ViewPipelineStatus ∧
    SelectedRow pipelineStatusModel.Table = ["P", "1 stages"] ∧
    ∃ (p : PipelineStatus) (before after : List PipelineStatus),
      pipelineStatusModel.Pipelines.elems = before ++ p :: after ∧
      (∀ q ∈ before, q.Name ≠ "P") ∧ p.Name = "P" ∧
      HandleEnter idCore pipelineStatusModel =
        some (UpdateTableForView
          { pipelineStatusModel with
              CurrentView := (if operationIs pipelineStatusModel "Start Pipeline" = true
                              then ViewExecutingAction else ViewPipelineStages),
              SelectedPipeline := some p }, none) :=
  ⟨rfl, rfl,
    (HandleEnter_pipeline_status idCore pipelineStatusModel "P" ["1 stages"] rfl rfl).1
      ⟨pipelineP, by decide, rfl⟩⟩

/-! ## AWSConfig: the table selection -/

/-- C14: on AWSConfig with `manualInput = false` and a highlighted row whose
cell is `r`: if `r = "Manual Entry"` confirm sets `manualInput = true`, sets the
placeholder to `Enter AWS profile name...` when `awsProfile = ""` and to
`Enter AWS region...` otherwise, and changes neither `awsProfile`, `awsRegion`
nor `currentScreen`; otherwise, if `awsProfile = ""` it sets `awsProfile = r`
and stays on AWSConfig with `awsRegion` unchanged, else it sets `awsRegion = r`
and moves to SelectService with `awsProfile` unchanged. No task is emitted. -/
theorem HandleEnter_awsconfig_table (C : Core) (m : Model) (r : String) (rest : Row)
    (hv : m.CurrentView = ViewAWSConfig) (hm : m.ManualInput = false)
    (hrow : SelectedRow m.Table = r :: rest) :
    (r = "Manual Entry" →
      ∃ x : Model, HandleEnter C m = some (x, none) ∧ x.ManualInput = true ∧
        x.TextInput.Placeholder =
          (if m.AwsProfile = "" then "Enter AWS profile name..." else "Enter AWS region...") ∧
        x.AwsProfile = m.AwsProfile ∧ x.AwsRegion = m.AwsRegion ∧
        x.CurrentView = m.CurrentView) ∧
    (r ≠ "Manual Entry" → m.AwsProfile = "" →
      ∃ x : Model, HandleEnter C m = some (x, none) ∧ x.AwsProfile = r ∧
        x.CurrentView = ViewAWSConfig ∧ x.AwsRegion = m.AwsRegion) ∧
    (r ≠ "Manual Entry" → m.AwsProfile ≠ "" →
      ∃ x : Model, HandleEnter C m = some (x, none) ∧ x.AwsRegion = r ∧
        x.CurrentView = ViewSelectService ∧ x.AwsProfile = m.AwsProfile) := by
  have hc : ¬(m.CurrentView = ViewAWSConfig ∧ m.ManualInput = true) := by
    rw [hm]; exact fun h => absurd h.2 (by decide)
  have hE : HandleEnter C m = HandleAWSConfigSelection m := by
    rw [HandleEnter, if_neg hc, hv]
  rw [hE]
  unfold HandleAWSConfigSelection
  rw [hrow]
  refine ⟨fun h1 => ?_, fun h1 h2 => ?_, fun h1 h2 => ?_⟩
  · simp only [if_pos h1]
    by_cases h2 : m.AwsProfile = ""
    · simp only [if_pos h2]
      exact ⟨_, rfl, rfl, rfl, rfl, rfl, rfl⟩
    · simp only [if_neg h2]
      exact ⟨_, rfl, rfl, rfl, rfl, rfl, rfl⟩
  · simp only [if_neg h1, if_pos h2]
    exact ⟨_, rfl, rfl, hv, rfl⟩
  · simp only [if_neg h1, if_neg h2]
    exact ⟨_, rfl, rfl, rfl, rfl⟩

theorem HandleEnter_awsconfig_table_witness :
    profileTableModel.CurrentView = ViewAWSConfig ∧
    profileTableModel.ManualInput = false ∧
    SelectedRow profileTableModel.Table = ["prod"] ∧
    profileTableModel.AwsProfile = "" ∧
    ∃ x : Model, HandleEnter idCore profileTableModel = some (x, none) ∧
      x.AwsProfile = "prod" ∧ x.CurrentView = ViewAWSConfig ∧
      x.AwsRegion = profileTableModel.AwsRegion :=
  ⟨rfl, rfl, rfl, rfl,
    (HandleEnter_awsconfig_table idCore profileTableModel "prod" [] rfl rfl rfl).2.1
      (by decide) rfl⟩

/-! ## No highlighted row -/

theorem HandleEnter_no_row_unchanged (C : Core) (m : Model) :
    (SelectedRow m.Table = [] →
      (m.CurrentView ∈ rowScreens ∨
        (m.CurrentView = ViewAWSConfig ∧ m.ManualInput = false)) →
      HandleEnter C m = some (m, none)) ∧
    (m.CurrentView = ViewApprovals → m.Approvals.elems = [] →
      getRowsForView m = [] ∧ SelectedRow (UpdateTableForView m).Table = [] ∧
        HandleEnter C m = some (m, none)) := by
  refine ⟨fun hrow hscreen => ?_, fun hv hap => ?_⟩
  · rcases hscreen with hs | ⟨hv, hm⟩
    · have hc : ¬(m.CurrentView = ViewAWSConfig ∧ m.ManualInput = true) := by
        intro h
        rw [h.1] at hs
        revert hs
        decide
      rw [HandleEnter, if_neg hc]
      simp only [rowScreens, List.mem_cons, List.mem_singleton, List.not_mem_nil, or_false]
        at hs
      rcases hs with hv | hv | hv | hv | hv | hv | hv | hv <;> rw [hv] <;> simp only
      · rw [HandleProviderSelection, hrow]
      · rw [HandleServiceSelection, hrow]
      · rw [HandleCategorySelection, hrow]
      · rw [HandleOperationSelection, hrow]
      · rw [HandleApprovalSelection, hrow]
      · rw [HandleConfirmationSelection, hrow]
      · rw [HandleExecutionSelection, hrow]
      · rw [hrow]
    · have hc : ¬(m.CurrentView = ViewAWSConfig ∧ m.ManualInput = true) := by
        rw [hm]; exact fun h => absurd h.2 (by decide)
      rw [HandleEnter, if_neg hc, hv]
      simp only
      rw [HandleAWSConfigSelection, hrow]
  · have hc : ¬(m.CurrentView = ViewAWSConfig ∧ m.ManualInput = true) := by
      rw [hv]; exact fun h => absurd h.1 (by decide)
    have hrows : getRowsForView m = [] := by
      rw [getRowsForView, hv]
      simp only [hap, List.map_nil]
    refine ⟨hrows, ?_, ?_⟩
    · simp [SelectedRow, UpdateTableForView, hrows]
    · rw [HandleEnter, if_neg hc, hv]
      simp only
      rw [HandleApprovalSelection, hap]
      cases SelectedRow m.Table with
      | nil => rfl
      | cons s0 rest => rfl

/-- C15 (the code at the failing input): on Summary with `Start Pipeline`,
`manualInput = false` and no pipeline selected, the catalog gives the screen no
rows, so there is no highlighted row; confirm does not return the model
unchanged, as the other row-reading screens do: it falls through to
`HandleSummaryConfirmation` and advances to ExecutingAction, still with no
pipeline selected, where the next confirm on `Execute` emits ExecutePipeline. -/
theorem HandleEnter_no_row_on_summary_advances :
    noPipelineSummaryModel.CurrentView = ViewSummary ∧
    noPipelineSummaryModel.ManualInput = false ∧
    operationIs noPipelineSummaryModel "Start Pipeline" = true ∧
    noPipelineSummaryModel.SelectedPipeline = none ∧
    noPipelineSummaryModel.Table.rows = getRowsForView noPipelineSummaryModel ∧
    noPipelineSummaryModel.Table.rows = [] ∧
    SelectedRow noPipelineSummaryModel.Table = [] ∧
    HandleEnter idCore noPipelineSummaryModel = some (noPipelineExecuteModel, none) ∧
    HandleEnter idCore noPipelineSummaryModel ≠ some (noPipelineSummaryModel, none) ∧
    noPipelineExecuteModel.CurrentView = ViewExecutingAction ∧
    noPipelineExecuteModel.SelectedPipeline = none ∧
    (HandleEnter idCore noPipelineExecuteModel).map Prod.snd =
      some (some (.ExecutePipeline noPipelineExecuteModel)) := by
  refine ⟨rfl, rfl, rfl, rfl, rfl, rfl, rfl, rfl, ?_, rfl, rfl, rfl⟩
  decide

/-! ## Unset selections -/

/-- C16 (the code at the failing input): on ExecutingAction with the row
`Execute`, operation `Start Pipeline` and no pipeline selected, confirm does
not return the model unchanged: it raises `isLoading` and emits
ExecutePipeline, and the task, once the adapter is built, dereferences the nil
`selectedPipeline` and posts no message. -/
theorem HandleEnter_execute_without_pipeline :
    noPipelineExecuteModel.CurrentView = ViewExecutingAction ∧
    SelectedRow noPipelineExecuteModel.Table =
      ["Execute", "Start pipeline with latest commit"] ∧
    operationIs noPipelineExecuteModel "Start Pipeline" = true ∧
    noPipelineExecuteModel.SelectedPipeline = none ∧
    HandleEnter idCore noPipelineExecuteModel =
      some ({ noPipelineExecuteModel with
                IsLoading := true, LoadingMsg := "Starting pipeline..." },
            some (.ExecutePipeline noPipelineExecuteModel)) ∧
    Cmd.run okAws (.ExecutePipeline noPipelineExecuteModel) =
      ⟨[.New "dev" "us-west-2"], none⟩ :=
  ⟨rfl, rfl, rfl, rfl, rfl, rfl⟩

/-! ## The approval flow, end to end -/

theorem HandleEnter_confirmation_row (C : Core) (m : Model) (approve : Bool) (rest : Row)
    (hv : m.CurrentView = ViewConfirmation)
    (hrow : SelectedRow m.Table = (if approve then "Approve" else "Reject") :: rest) :
    HandleEnter C m =
      some (UpdateTableForView
        { m with ApproveAction := approve, CurrentView := ViewSummary, ManualInput := true,
                 TextInput := C.SetTextInputForApproval approve m.TextInput,
                 ApprovalComment := "" }, none) := by
  have hc : ¬(m.CurrentView = ViewAWSConfig ∧ m.ManualInput = true) := by
    rw [hv]; exact fun h => absurd h.1 (by decide)
  rw [HandleEnter, if_neg hc, hv]
  simp only
  rw [HandleConfirmationSelection, hrow]
  cases approve
  · rfl
  · rfl

theorem HandleEnter_summary_comment (C : Core) (m : Model) (a : ApprovalAction)
    (hv : m.CurrentView = ViewSummary) (hm : m.ManualInput = true)
    (hsa : m.SelectedApproval = some a) :
    HandleEnter C m =
      if TrimSpace m.TextInput.Value = "" then
        some ({ m with TextInput := m.TextInput.Focus }, none)
      else
        some (UpdateTableForView
          { m with ApprovalComment := m.TextInput.Value, CurrentView := ViewExecutingAction,
                   ManualInput := false }, none) := by
  have hc : ¬(m.CurrentView = ViewAWSConfig ∧ m.ManualInput = true) := by
    rw [hv]; exact fun h => absurd h.1 (by decide)
  have hE : HandleEnter C m = HandleSummaryConfirmation m := by
    rw [HandleEnter, if_neg hc, hv]
    simp only [hm, Bool.not_true, Bool.false_eq_true, false_and, if_false]
  rw [hE]
  unfold HandleSummaryConfirmation
  split
  · rfl
  · rename_i hnone
    rw [hsa] at hnone
    cases hnone

theorem HandleEnter_execute_approval (C : Core) (m : Model) (a : ApprovalAction) (rest : Row)
    (hv : m.CurrentView = ViewExecutingAction)
    (hrow : SelectedRow m.Table = "Execute" :: rest)
    (hop : operationIs m "Start Pipeline" = false) (hsa : m.SelectedApproval = some a) :
    HandleEnter C m =
      some ({ m with IsLoading := true, LoadingMsg := "Executing approval action..." },
            some (.ExecuteApproval m)) := by
  have hc : ¬(m.CurrentView = ViewAWSConfig ∧ m.ManualInput = true) := by
    rw [hv]; exact fun h => absurd h.1 (by decide)
  have hE : HandleEnter C m = HandleExecutionSelection C m := by
    rw [HandleEnter, if_neg hc, hv]
  rw [hE]
  unfold HandleExecutionSelection
  rw [hrow]
  simp [hop, hsa]

theorem executing_rows_of_approval (m : Model) (hv : m.CurrentView = ViewExecutingAction)
    (hop : operationIs m "Start Pipeline" = false) :
    ∃ d : String, SelectedRow (UpdateTableForView m).Table = ["Execute", d] := by
  have hrows : getRowsForView m =
      [["Execute", "Execute " ++ (if !m.ApproveAction then "reject" else "approve") ++ " action"],
       ["Cancel", "Cancel and return to main menu"]] := by
    rw [getRowsForView, hv]
    simp only [hop, Bool.false_eq_true, if_false]
  simp only [SelectedRow, UpdateTableForView, hrows]
  exact ⟨_, rfl⟩

theorem HandleEnter_summary_comment_stored (C : Core) (m : Model) (a : ApprovalAction)
    (hv : m.CurrentView = ViewSummary) (hm : m.ManualInput = true)
    (hsa : m.SelectedApproval = some a) (hop : operationIs m "Start Pipeline" = false)
    (hne : TrimSpace m.TextInput.Value ≠ "") :
    ∃ m2 : Model, HandleEnter C m = some (m2, none) ∧
      m2.CurrentView = ViewExecutingAction ∧
      (∃ d : String, SelectedRow m2.Table = ["Execute", d]) ∧
      operationIs m2 "Start Pipeline" = false ∧ m2.SelectedApproval = some a ∧
      m2.AwsProfile = m.AwsProfile ∧ m2.AwsRegion = m.AwsRegion ∧
      m2.ApproveAction = m.ApproveAction ∧ m2.ApprovalComment = m.TextInput.Value := by
  refine ⟨_, (HandleEnter_summary_comment C m a hv hm hsa).trans (if_neg hne), rfl,
    executing_rows_of_approval _ rfl hop, hop, hsa, rfl, rfl, rfl, rfl⟩

theorem HandleEnter_summary_comment_empty (C : Core) (m : Model) (a : ApprovalAction)
    (hv : m.CurrentView = ViewSummary) (hm : m.ManualInput = true)
    (hsa : m.SelectedApproval = some a) (hemp : TrimSpace m.TextInput.Value = "") :
    ∃ r : Model, HandleEnter C m = some (r, none) ∧ r.CurrentView = ViewSummary ∧
      HandleEnter C r = some (r, none) :=
  ⟨{ m with TextInput := m.TextInput.Focus },
    (HandleEnter_summary_comment C m a hv hm hsa).trans (if_pos hemp), hv,
    (HandleEnter_summary_comment C { m with TextInput := m.TextInput.Focus } a hv hm hsa).trans
      (if_pos hemp)⟩

theorem ExecuteApproval_calls (aws : Aws) (m : Model) (a : ApprovalAction)
    (provider : Provider) (hsa : m.SelectedApproval = some a)
    (hnew : aws.New m.AwsProfile m.AwsRegion = .ok provider) :
    (Cmd.run aws (.ExecuteApproval m)).calls =
      [.New m.AwsProfile m.AwsRegion,
       .PutApprovalResult provider a m.ApproveAction m.ApprovalComment] := by
  simp [Cmd.run, ExecuteApproval, hnew, hsa]

/-- C17: from any model on Confirmation with a selected approval `a` and an
operation other than `Start Pipeline`, confirm on `Approve` (resp. `Reject`),
then confirm on Summary with a text input holding `c`, trimmed `c` not empty,
then confirm on the ExecutingAction table (cursor on `Execute`) emits
ExecuteApproval, and the task, once the adapter is built, calls
`PutApprovalResult` with exactly `(a, true (resp. false), c)`; with an empty
trimmed buffer the Summary confirm stays on Summary with no task, and repeating
it changes nothing. Whether `isLoading` is set plays no part. -/
theorem approval_flow (C : Core) (aws : Aws) (m0 : Model) (a : ApprovalAction)
    (approve : Bool) (rest : Row) (t : TextInput)
    (hv : m0.CurrentView = ViewConfirmation) (hsa : m0.SelectedApproval = some a)
    (hop : operationIs m0 "Start Pipeline" = false)
    (hrow : SelectedRow m0.Table = (if approve then "Approve" else "Reject") :: rest) :
    ∃ m1 : Model, HandleEnter C m0 = some (m1, none) ∧
      (TrimSpace t.Value ≠ "" →
        ∃ m2 m3 : Model,
          HandleEnter C { m1 with TextInput := t } = some (m2, none) ∧
          (SelectedRow m2.Table).head? = some "Execute" ∧
          HandleEnter C m2 = some (m3, some (.ExecuteApproval m2)) ∧
          ∀ provider : Provider, aws.New m0.AwsProfile m0.AwsRegion = .ok provider →
            (Cmd.run aws (.ExecuteApproval m2)).calls =
              [.New m0.AwsProfile m0.AwsRegion,
               .PutApprovalResult provider a approve t.Value]) ∧
      (TrimSpace t.Value = "" →
        ∃ r : Model, HandleEnter C { m1 with TextInput := t } = some (r, none) ∧
          r.CurrentView = ViewSummary ∧ HandleEnter C r = some (r, none)) := by
  refine ⟨_, HandleEnter_confirmation_row C m0 approve rest hv hrow, fun hne => ?_,
    fun hemp => ?_⟩
  · obtain ⟨m2, h2, hv2, ⟨d, hrow2⟩, hop2, hsa2, hp2, hr2, haa2, hac2⟩ :=
      HandleEnter_summary_comment_stored C
        { (UpdateTableForView
            { m0 with ApproveAction := approve, CurrentView := ViewSummary,
                      ManualInput := true,
                      TextInput := C.SetTextInputForApproval approve m0.TextInput,
                      ApprovalComment := "" }) with TextInput := t }
        a rfl rfl hsa hop hne
    refine ⟨m2, _, h2, by rw [hrow2]; rfl,
      HandleEnter_execute_approval C m2 a [d] hv2 hrow2 hop2 hsa2, fun provider hnew => ?_⟩
    have hp : m2.AwsProfile = m0.AwsProfile := hp2
    have hr : m2.AwsRegion = m0.AwsRegion := hr2
    have haa : m2.ApproveAction = approve := haa2
    have hac : m2.ApprovalComment = t.Value := hac2
    rw [← hp, ← hr] at hnew
    rw [ExecuteApproval_calls aws m2 a provider hsa2 hnew, hp, hr, haa, hac]
  · exact HandleEnter_summary_comment_empty C _ a rfl rfl hsa hemp

theorem approval_flow_witness :
    confirmationModel.CurrentView = ViewConfirmation ∧
    confirmationModel.SelectedApproval = some approvalP1 ∧
    operationIs confirmationModel "Start Pipeline" = false ∧
    SelectedRow confirmationModel.Table = ["Reject", "Reject the pipeline stage"] ∧
    ∃ m1 : Model, HandleEnter idCore confirmationModel = some (m1, none) ∧
      (TrimSpace (TextInput.mk "bad deploy" "" true).Value ≠ "" →
        ∃ m2 m3 : Model,
          HandleEnter idCore { m1 with TextInput := ⟨"bad deploy", "", true⟩ } =
            some (m2, none) ∧
          (SelectedRow m2.Table).head? = some "Execute" ∧
          HandleEnter idCore m2 = some (m3, some (.ExecuteApproval m2)) ∧
          ∀ provider : Provider,
            okAws.New confirmationModel.AwsProfile confirmationModel.AwsRegion =
              .ok provider →
            (Cmd.run okAws (.ExecuteApproval m2)).calls =
              [.New confirmationModel.AwsProfile confirmationModel.AwsRegion,
               .PutApprovalResult provider approvalP1 false
                 (TextInput.mk "bad deploy" "" true).Value]) ∧
      (TrimSpace (TextInput.mk "bad deploy" "" true).Value = "" →
        ∃ r : Model,
          HandleEnter idCore { m1 with TextInput := ⟨"bad deploy", "", true⟩ } =
            some (r, none) ∧
          r.CurrentView = ViewSummary ∧ HandleEnter idCore r = some (r, none)) :=
  ⟨rfl, rfl, rfl, rfl,
    approval_flow idCore okAws confirmationModel approvalP1 false
      ["Reject the pipeline stage"] ⟨"bad deploy", "", true⟩ rfl rfl rfl rfl⟩

/-! ## The async tasks -/

/-- C18 (amended): each of the four tasks first constructs the adapter from
the model's `(awsProfile, awsRegion)`, and when construction fails no
capability is invoked. FetchApprovals and FetchPipelines post an
`ApprovalsMsg` / `PipelineStatusMsg` carrying the fetched list, unchanged, when
the fetch succeeds, and a generic `ErrMsg` carrying the error when adapter
construction or the capability fails. ExecuteApproval and ExecutePipeline post
an `ApprovalResultMsg` / `PipelineExecutionMsg` carrying the construction
error, or, with the approval (resp. pipeline) selected, the capability's
error or nil. -/
theorem tasks_post_one_message (aws : Aws) (m : Model) :
    (∀ err : String, aws.New m.AwsProfile m.AwsRegion = .error err →
      Cmd.run aws (.FetchApprovals m) =
        ⟨[.New m.AwsProfile m.AwsRegion], some (.ErrMsg (some err))⟩ ∧
      Cmd.run aws (.FetchPipelineStatus m) =
        ⟨[.New m.AwsProfile m.AwsRegion], some (.ErrMsg (some err))⟩ ∧
      Cmd.run aws (.ExecuteApproval m) =
        ⟨[.New m.AwsProfile m.AwsRegion], some (.ApprovalResultMsg (some err))⟩ ∧
      Cmd.run aws (.ExecutePipeline m) =
        ⟨[.New m.AwsProfile m.AwsRegion], some (.PipelineExecutionMsg (some err))⟩) ∧
    (∀ provider : Provider, aws.New m.AwsProfile m.AwsRegion = .ok provider →
      (∀ err : String, aws.GetPendingApprovals provider = .error err →
        Cmd.run aws (.FetchApprovals m) =
          ⟨[.New m.AwsProfile m.AwsRegion, .GetPendingApprovals provider],
            some (.ErrMsg (some err))⟩) ∧
      (∀ approvals : Slice ApprovalAction, aws.GetPendingApprovals provider = .ok approvals →
        Cmd.run aws (.FetchApprovals m) =
          ⟨[.New m.AwsProfile m.AwsRegion, .GetPendingApprovals provider],
            some (.ApprovalsMsg approvals provider)⟩) ∧
      (∀ err : String, aws.GetPipelineStatus provider = .error err →
        Cmd.run aws (.FetchPipelineStatus m) =
          ⟨[.New m.AwsProfile m.AwsRegion, .GetPipelineStatus provider],
            some (.ErrMsg (some err))⟩) ∧
      (∀ pipelines : Slice PipelineStatus, aws.GetPipelineStatus provider = .ok pipelines →
        Cmd.run aws (.FetchPipelineStatus m) =
          ⟨[.New m.AwsProfile m.AwsRegion, .GetPipelineStatus provider],
            some (.PipelineStatusMsg pipelines provider)⟩) ∧
      (∀ a : ApprovalAction, m.SelectedApproval = some a →
        Cmd.run aws (.ExecuteApproval m) =
          ⟨[.New m.AwsProfile m.AwsRegion,
             .PutApprovalResult provider a m.ApproveAction m.ApprovalComment],
            some (.ApprovalResultMsg
              (aws.PutApprovalResult provider a m.ApproveAction m.ApprovalComment))⟩) ∧
      (∀ p : PipelineStatus, m.SelectedPipeline = some p →
        Cmd.run aws (.ExecutePipeline m) =
          ⟨[.New m.AwsProfile m.AwsRegion,
             .StartPipelineExecution provider p.Name
               (if m.ManualCommitID then m.CommitID else "")],
            some (.PipelineExecutionMsg
              (aws.StartPipelineExecution provider p.Name
                (if m.ManualCommitID then m.CommitID else "")))⟩)) := by
  refine ⟨fun err hnew => ?_, fun provider hnew => ⟨fun err h => ?_, fun l h => ?_,
    fun err h => ?_, fun l h => ?_, fun a h => ?_, fun p h => ?_⟩⟩
  · simp [Cmd.run, FetchApprovals, FetchPipelineStatus, ExecuteApproval, ExecutePipeline, hnew]
  · simp [Cmd.run, FetchApprovals, hnew, h]
  · simp [Cmd.run, FetchApprovals, hnew, h]
  · simp [Cmd.run, FetchPipelineStatus, hnew, h]
  · simp [Cmd.run, FetchPipelineStatus, hnew, h]
  · simp [Cmd.run, ExecuteApproval, hnew, h]
  · simp [Cmd.run, ExecutePipeline, hnew, h]

theorem tasks_post_one_message_witness :
    okAws.New workflowsModel.AwsProfile workflowsModel.AwsRegion = .ok ⟨0⟩ ∧
    okAws.GetPendingApprovals ⟨0⟩ = .ok (some [approvalP1]) ∧
    Cmd.run okAws (.FetchApprovals workflowsModel) =
      ⟨[.New "dev" "us-west-2", .GetPendingApprovals ⟨0⟩],
        some (.ApprovalsMsg (some [approvalP1]) ⟨0⟩)⟩ :=
  ⟨rfl, rfl,
    ((tasks_post_one_message okAws workflowsModel).2 ⟨0⟩ rfl).2.1 (some [approvalP1]) rfl⟩

/-- C18 (as stated) fails: when the adapter cannot be built, FetchApprovals
posts an `ErrMsg`, not an `ApprovalsMsg`. -/
theorem tasks_post_one_message_counterexample :
    failAws.New workflowsModel.AwsProfile workflowsModel.AwsRegion =
      .error "no credentials" ∧
    Cmd.run failAws (.FetchApprovals workflowsModel) =
      ⟨[.New "dev" "us-west-2"], some (.ErrMsg (some "no credentials"))⟩ ∧
    ∀ (approvals : Slice ApprovalAction) (provider : Provider),
      (Cmd.run failAws (.FetchApprovals workflowsModel)).result ≠
        some (.ApprovalsMsg approvals provider) := by
  refine ⟨rfl, rfl, fun approvals provider h => ?_⟩
  have h2 : (Cmd.run failAws (.FetchApprovals workflowsModel)).result =
      some (.ErrMsg (some "no credentials")) := rfl
  rw [h2] at h
  cases h

/-! ## The screen catalog -/

/-- C19: on AWSConfig the rows are the single-cell row `Manual Entry` followed
by one single-cell row per element of `profiles`, in order, when
`awsProfile = ""`, and per element of `regions` otherwise: row 0 is
`Manual Entry`, row `i + 1` holds element `i`, the row count is the list length
plus one, and with an empty or nil list the only row is `Manual Entry`. -/
theorem getRowsForView_awsconfig (m : Model) (hv : m.CurrentView = ViewAWSConfig) :
    (m.AwsProfile = "" →
      getRowsForView m = ["Manual Entry"] :: m.Profiles.elems.map (fun p => [p]) ∧
      (getRowsForView m)[0]? = some ["Manual Entry"] ∧
      (∀ i : Nat, (getRowsForView m)[i + 1]? = (m.Profiles.elems[i]?).map (fun p => [p])) ∧
      (getRowsForView m).length = m.Profiles.elems.length + 1 ∧
      (m.Profiles = none ∨ m.Profiles = some [] → getRowsForView m = [["Manual Entry"]])) ∧
    (m.AwsProfile ≠ "" →
      getRowsForView m = ["Manual Entry"] :: m.Regions.elems.map (fun p => [p]) ∧
      (getRowsForView m)[0]? = some ["Manual Entry"] ∧
      (∀ i : Nat, (getRowsForView m)[i + 1]? = (m.Regions.elems[i]?).map (fun p => [p])) ∧
      (getRowsForView m).length = m.Regions.elems.length + 1 ∧
      (m.Regions = none ∨ m.Regions = some [] → getRowsForView m = [["Manual Entry"]])) := by
  constructor
  · intro hp
    have hrows : getRowsForView m =
        ["Manual Entry"] :: m.Profiles.elems.map (fun p => [p]) := by
      rw [getRowsForView, hv]
      simp only [if_pos hp]
    rw [hrows]
    refine ⟨rfl, by simp, fun i => ?_, by simp, fun hnil => ?_⟩
    · simp [List.getElem?_map]
    · rcases hnil with h | h <;> rw [h] <;> rfl
  · intro hp
    have hrows : getRowsForView m =
        ["Manual Entry"] :: m.Regions.elems.map (fun p => [p]) := by
      rw [getRowsForView, hv]
      simp only [if_neg hp]
    rw [hrows]
    refine ⟨rfl, by simp, fun i => ?_, by simp, fun hnil => ?_⟩
    · simp [List.getElem?_map]
    · rcases hnil with h | h <;> rw [h] <;> rfl

theorem getRowsForView_awsconfig_witness :
    noRegionsModel.CurrentView = ViewAWSConfig ∧
    noRegionsModel.AwsProfile ≠ "" ∧
    noRegionsModel.Regions = none ∧
    getRowsForView noRegionsModel = [["Manual Entry"]] :=
  ⟨rfl, by decide, rfl,
    ((getRowsForView_awsconfig noRegionsModel rfl).2 (by decide)).2.2.2.2 (Or.inl rfl)⟩

theorem approvalLoop_returns (selected : Row) (s0 s1 s2 : String)
    (h1 : selected[1]? = some s1) (h2 : selected[2]? = some s2) (l : List ApprovalAction) :
    ∃ o : Option ApprovalAction, approvalLoop selected s0 l = some o := by
  induction l with
  | nil => exact ⟨none, rfl⟩
  | cons x rest ih =>
    unfold approvalLoop
    rw [h1, h2]
    dsimp only
    split_ifs
    · exact ⟨_, rfl⟩
    · exact ih
    · exact ih
    · exact ih

theorem HandleEnter_returns (C : Core) (m : Model)
    (h2 : m.CurrentView = ViewSelectService ∨ m.CurrentView = ViewSelectCategory ∨
        m.CurrentView = ViewSelectOperation →
      SelectedRow m.Table = [] ∨ 2 ≤ (SelectedRow m.Table).length)
    (h3 : m.CurrentView = ViewApprovals →
      SelectedRow m.Table = [] ∨ 3 ≤ (SelectedRow m.Table).length) :
    ∃ r : Step, HandleEnter C m = some r := by
  have two : ∀ (s0 : String) (rest : Row),
      ([] : Row) = s0 :: rest ∨ 2 ≤ (s0 :: rest).length → ∃ s1, rest.head? = some s1 := by
    intro s0 rest h
    rcases h with h | h
    · cases h
    · cases rest with
      | nil => simp at h
      | cons s1 _ => exact ⟨s1, rfl⟩
  by_cases hc : m.CurrentView = ViewAWSConfig ∧ m.ManualInput = true
  · rw [HandleEnter, if_pos hc]
    dsimp only
    split_ifs <;> exact ⟨_, rfl⟩
  · rw [HandleEnter, if_neg hc]
    cases hv : m.CurrentView <;> dsimp only
    · unfold HandleProviderSelection
      split
      · exact ⟨_, rfl⟩
      · split_ifs <;> exact ⟨_, rfl⟩
    · unfold HandleAWSConfigSelection
      split
      · exact ⟨_, rfl⟩
      · dsimp only
        split_ifs <;> exact ⟨_, rfl⟩
    · unfold HandleServiceSelection
      have h := h2 (Or.inl hv)
      cases hrow : SelectedRow m.Table with
      | nil => exact ⟨_, rfl⟩
      | cons s0 rest =>
        rw [hrow] at h
        obtain ⟨s1, hs1⟩ := two s0 rest (h.imp (fun e => by cases e) id)
        simp only [hs1]
        exact ⟨_, rfl⟩
    · unfold HandleCategorySelection
      have h := h2 (Or.inr (Or.inl hv))
      cases hrow : SelectedRow m.Table with
      | nil => exact ⟨_, rfl⟩
      | cons s0 rest =>
        rw [hrow] at h
        obtain ⟨s1, hs1⟩ := two s0 rest (h.imp (fun e => by cases e) id)
        simp only [hs1]
        exact ⟨_, rfl⟩
    · unfold HandleOperationSelection
      have h := h2 (Or.inr (Or.inr hv))
      cases hrow : SelectedRow m.Table with
      | nil => exact ⟨_, rfl⟩
      | cons s0 rest =>
        rw [hrow] at h
        obtain ⟨s1, hs1⟩ := two s0 rest (h.imp (fun e => by cases e) id)
        simp only [hs1]
        split_ifs <;> exact ⟨_, rfl⟩
    · unfold HandleApprovalSelection
      have h := h3 hv
      cases hrow : SelectedRow m.Table with
      | nil => exact ⟨_, rfl⟩
      | cons s0 rest =>
        rw [hrow] at h
        have hlen : 3 ≤ (s0 :: rest).length := by
          rcases h with h | h
          · cases h
          · exact h
        obtain ⟨s1, s2, hs1, hs2⟩ : ∃ s1 s2, (s0 :: rest)[1]? = some s1 ∧
            (s0 :: rest)[2]? = some s2 := by
          match rest, hlen with
          | s1 :: s2 :: _, _ => exact ⟨s1, s2, by simp, by simp⟩
          | [_], hl => simp at hl
          | [], hl => simp at hl
        obtain ⟨o, ho⟩ := approvalLoop_returns (s0 :: rest) s0 s1 s2 hs1 hs2 m.Approvals.elems
        simp only [ho]
        cases o <;> exact ⟨_, rfl⟩
    · unfold HandleConfirmationSelection
      split
      · exact ⟨_, rfl⟩
      · split_ifs <;> exact ⟨_, rfl⟩
    · have hS : ∃ r : Step, HandleSummaryConfirmation m = some r := by
        unfold HandleSummaryConfirmation
        split
        · split_ifs <;> exact ⟨_, rfl⟩
        · dsimp only
          split_ifs <;> exact ⟨_, rfl⟩
      split_ifs
      · split
        · exact hS
        · split_ifs
          · exact ⟨_, rfl⟩
          · exact ⟨_, rfl⟩
          · exact hS
      · exact hS
    · unfold HandleExecutionSelection
      split
      · exact ⟨_, rfl⟩
      · split_ifs <;> exact ⟨_, rfl⟩
    · split
      · exact ⟨_, rfl⟩
      · split
        · exact ⟨_, rfl⟩
        · split_ifs <;> exact ⟨_, rfl⟩
    · exact ⟨_, rfl⟩

theorem SelectedRow_mem (t : Table) : SelectedRow t = [] ∨ SelectedRow t ∈ t.rows := by
  unfold SelectedRow
  cases h : t.rows.get? t.cursor with
  | none => exact Or.inl rfl
  | some row => exact Or.inr (List.get?_mem h)

theorem getColumnsForView_length (m : Model) :
    (getColumnsForView m).length = columnCount m.CurrentView := by
  unfold getColumnsForView
  cases hv : m.CurrentView <;> simp only [columnCount] <;> first | rfl | (split_ifs <;> rfl)

theorem getRowsForView_row_length (m : Model) (row : Row) (hrow : row ∈ getRowsForView m) :
    row.length = columnCount m.CurrentView := by
  unfold getRowsForView at hrow
  cases hv : m.CurrentView <;> rw [hv] at hrow <;> simp only [columnCount] at hrow ⊢
  case ViewProviders =>
    simp at hrow
    rcases hrow with h | h | h <;> rw [h] <;> rfl
  case ViewAWSConfig =>
    split_ifs at hrow <;>
    · simp at hrow
      rcases hrow with h | ⟨p, _, h⟩
      · rw [h]; rfl
      · rw [← h]; rfl
  case ViewSelectService =>
    simp at hrow
    rw [hrow]; rfl
  case ViewSelectCategory =>
    simp at hrow
    rcases hrow with h | h <;> rw [h] <;> rfl
  case ViewSelectOperation =>
    split at hrow
    · split_ifs at hrow
      · simp at hrow
        rcases hrow with h | h | h <;> rw [h] <;> rfl
      · simp at hrow
    · simp at hrow
  case ViewApprovals =>
    simp at hrow
    obtain ⟨a, _, h⟩ := hrow
    rw [← h]; rfl
  case ViewConfirmation =>
    simp at hrow
    rcases hrow with h | h <;> rw [h] <;> rfl
  case ViewSummary =>
    split_ifs at hrow
    · split at hrow
      · simp at hrow
      · simp at hrow
        rcases hrow with h | h <;> rw [h] <;> rfl
    · simp at hrow
  case ViewExecutingAction =>
    split_ifs at hrow <;>
    · simp at hrow
      rcases hrow with h | h <;> rw [h] <;> rfl
  case ViewPipelineStatus =>
    split at hrow
    · simp at hrow
    · simp at hrow
      obtain ⟨a, _, h⟩ := hrow
      rw [← h]; rfl
  case ViewPipelineStages =>
    split at hrow
    · simp at hrow
    · simp at hrow
      obtain ⟨a, _, h⟩ := hrow
      rw [← h]; rfl

/-- C20: for every model and screen, each row of `getRowsForView` has exactly
as many cells as `getColumnsForView` gives columns: 1 on AWSConfig, 3 on
Approvals and PipelineStages, 2 on the other screens. Hence on a table whose
rows are the catalog's rows for the current screen, wherever the cursor is, the
handlers' reads of `selected[1]` and `selected[2]` are in bounds: confirm
returns a result. -/
theorem rows_match_columns (C : Core) (m : Model) :
    (getColumnsForView m).length = columnCount m.CurrentView ∧
    (∀ row ∈ getRowsForView m, row.length = (getColumnsForView m).length) ∧
    (m.Table.rows = getRowsForView m → ∃ r : Step, HandleEnter C m = some r) := by
  refine ⟨getColumnsForView_length m, fun row hrow => ?_, fun htable => ?_⟩
  · rw [getColumnsForView_length, getRowsForView_row_length m row hrow]
  · have hsel : SelectedRow m.Table = [] ∨
        (SelectedRow m.Table).length = columnCount m.CurrentView := by
      rcases SelectedRow_mem m.Table with h | h
      · exact Or.inl h
      · rw [htable] at h
        exact Or.inr (getRowsForView_row_length m _ h)
    apply HandleEnter_returns
    · intro hv
      rcases hsel with h | h
      · exact Or.inl h
      · right
        rw [h]
        rcases hv with hv | hv | hv <;> rw [hv] <;> decide
    · intro hv
      rcases hsel with h | h
      · exact Or.inl h
      · right
        rw [h, hv]
        decide

theorem rows_match_columns_witness :
    approvalsModel.Table.rows = getRowsForView approvalsModel ∧
    (getColumnsForView approvalsModel).length = 3 ∧
    (∀ row ∈ getRowsForView approvalsModel, row.length = 3) ∧
    ∃ r : Step, HandleEnter idCore approvalsModel = some r :=
  ⟨rfl, (rows_match_columns idCore approvalsModel).1,
    (rows_match_columns idCore approvalsModel).2.1,
    (rows_match_columns idCore approvalsModel).2.2 rfl⟩

/-! ## Render, then select -/

theorem find?_first_index {α : Type} (p : α → Bool) (l : List α) :
    ∀ (i : Nat) (a : α), l[i]? = some a → p a = true →
      ∃ (j : Nat) (x : α), j ≤ i ∧ l[j]? = some x ∧ p x = true ∧ l.find? p = some x ∧
        ∀ (k : Nat) (y : α), k < j → l[k]? = some y → p y = false := by
  induction l with
  | nil =>
    intro i a hi _
    simp at hi
  | cons h t ih =>
    intro i a hi hpa
    by_cases hph : p h = true
    · refine ⟨0, h, Nat.zero_le i, by simp, hph, by simp [List.find?_cons, hph], ?_⟩
      intro k y hk
      exact absurd hk (Nat.not_lt_zero k)
    · cases i with
      | zero =>
        simp at hi
        rw [hi] at hph
        exact absurd hpa hph
      | succ i' =>
        have hi' : t[i']? = some a := by simpa using hi
        obtain ⟨j, x, hj, hjx, hpx, hfind, hfirst⟩ := ih i' a hi' hpa
        have hph' : p h = false := by simpa using hph
        refine ⟨j + 1, x, Nat.succ_le_succ hj, by simpa using hjx, hpx,
          by simp [List.find?_cons, hph', hfind], ?_⟩
        intro k y hk hky
        cases k with
        | zero =>
          simp at hky
          rw [← hky]
          exact hph'
        | succ k' =>
          exact hfirst k' y (Nat.lt_of_succ_lt_succ hk) (by simpa using hky)

theorem SelectedRow_of_rows {α : Type} (t : Table) (l : List α) (f : α → Row) (i : Nat)
    (a : α) (hrows : t.rows = l.map f) (hcur : t.cursor = i) (hi : l[i]? = some a) :
    SelectedRow t = f a := by
  unfold SelectedRow
  rw [hrows, hcur]
  simp [List.getElem?_map, hi]

theorem HandleEnter_pipeline_status_eq (C : Core) (m : Model) (n : String) (rest : Row)
    (hv : m.CurrentView = ViewPipelineStatus) (hrow : SelectedRow m.Table = n :: rest) :
    HandleEnter C m =
      match m.Pipelines.elems.find? (fun pipeline => decide (pipeline.Name = n)) with
      | none => some (m, none)
      | some pipeline =>
        some (UpdateTableForView
          { m with CurrentView := (if operationIs m "Start Pipeline" = true
                                   then ViewExecutingAction else ViewPipelineStages),
                   SelectedPipeline := some pipeline }, none) := by
  have hc : ¬(m.CurrentView = ViewAWSConfig ∧ m.ManualInput = true) := by
    rw [hv]; exact fun h => absurd h.1 (by decide)
  have hE : HandleEnter C m =
      match m.Pipelines.elems.find? (fun pipeline => decide (pipeline.Name = n)) with
      | none => some (m, none)
      | some pipeline =>
        if operationIs m "Start Pipeline" then
          some (UpdateTableForView
            { m with CurrentView := ViewExecutingAction,
                     SelectedPipeline := some pipeline }, none)
        else
          some (UpdateTableForView
            { m with CurrentView := ViewPipelineStages,
                     SelectedPipeline := some pipeline }, none) := by
    rw [HandleEnter, if_neg hc, hv]
    simp only
    rw [hrow]
  rw [hE]
  cases m.Pipelines.elems.find? (fun pipeline => decide (pipeline.Name = n)) with
  | none => rfl
  | some p =>
    by_cases hop : operationIs m "Start Pipeline" = true
    · simp only [hop, if_true]
    · simp only [hop, if_false]
      rfl

/-- C21: on a table holding the rows the catalog renders, with the cursor on
row `i`. Approvals: for `i` within `approvals`, confirm always moves to
Confirmation with `selectedApproval` the first element of `approvals` whose
(pipeline, stage, action) triple is that of `approvals[i]`; it is
`approvals[i]` itself when the triples are pairwise distinct, and when exactly
one earlier entry shares the triple (whatever its token) it is that earlier
entry. PipelineStatus: likewise confirm always advances (to ExecutingAction for
`Start Pipeline`, to PipelineStages otherwise) with `selectedPipeline` the
first element of `pipelines` named like `pipelines[i]`. No task is emitted. -/
theorem render_then_select (C : Core) (m : Model) (i : Nat)
    (htable : m.Table.rows = getRowsForView m) (hcur : m.Table.cursor = i) :
    (m.CurrentView = ViewApprovals → ∀ a : ApprovalAction, m.Approvals.elems[i]? = some a →
      ∃ (j : Nat) (x : ApprovalAction),
        j ≤ i ∧ m.Approvals.elems[j]? = some x ∧ sameTriple x a ∧
        (∀ (k : Nat) (y : ApprovalAction), k < j → m.Approvals.elems[k]? = some y →
          ¬sameTriple y a) ∧
        HandleEnter C m =
          some (UpdateTableForView
            { m with SelectedApproval := some x, CurrentView := ViewConfirmation }, none) ∧
        ((∀ (k k' : Nat) (y y' : ApprovalAction), m.Approvals.elems[k]? = some y →
            m.Approvals.elems[k']? = some y' → sameTriple y y' → k = k') → x = a) ∧
        (∀ (e : Nat) (b : ApprovalAction), e < i → m.Approvals.elems[e]? = some b →
          sameTriple b a →
          (∀ (k : Nat) (y : ApprovalAction), k ≠ e → k ≠ i →
            m.Approvals.elems[k]? = some y → ¬sameTriple y a) →
          x = b ∧ x.Token = b.Token)) ∧
    (m.CurrentView = ViewPipelineStatus →
      ∀ p : PipelineStatus, m.Pipelines.elems[i]? = some p →
      ∃ (j : Nat) (x : PipelineStatus),
        j ≤ i ∧ m.Pipelines.elems[j]? = some x ∧ x.Name = p.Name ∧
        (∀ (k : Nat) (y : PipelineStatus), k < j → m.Pipelines.elems[k]? = some y →
          y.Name ≠ p.Name) ∧
        HandleEnter C m =
          some (UpdateTableForView
            { m with CurrentView := (if operationIs m "Start Pipeline" = true
                                     then ViewExecutingAction else ViewPipelineStages),
                     SelectedPipeline := some x }, none) ∧
        ((∀ (k k' : Nat) (y y' : PipelineStatus), m.Pipelines.elems[k]? = some y →
            m.Pipelines.elems[k']? = some y' → y.Name = y'.Name → k = k') → x = p) ∧
        (∀ (e : Nat) (b : PipelineStatus), e < i → m.Pipelines.elems[e]? = some b →
          b.Name = p.Name →
          (∀ (k : Nat) (y : PipelineStatus), k ≠ e → k ≠ i →
            m.Pipelines.elems[k]? = some y → y.Name ≠ p.Name) →
          x = b)) := by
  constructor
  · intro hv a hi
    have hrows : getRowsForView m =
        m.Approvals.elems.map
          (fun approval => [approval.PipelineName, approval.StageName, approval.ActionName]) := by
      rw [getRowsForView, hv]
    have hsel : SelectedRow m.Table = [a.PipelineName, a.StageName, a.ActionName] :=
      SelectedRow_of_rows m.Table _ _ i a (htable.trans hrows) hcur hi
    have hE := HandleEnter_approvals_eq C m a.PipelineName a.StageName a.ActionName hv hsel
    obtain ⟨j, x, hj, hjx, hpx, hfind, hfirst⟩ :=
      find?_first_index (hasTriple a.PipelineName a.StageName a.ActionName)
        m.Approvals.elems i a hi (by simp [hasTriple])
    rw [hfind] at hE
    have hxa : sameTriple x a := by simpa [hasTriple, sameTriple] using hpx
    refine ⟨j, x, hj, hjx, hxa, fun k y hk hky => ?_, hE, fun hdistinct => ?_,
      fun e b he heb hba hothers => ?_⟩
    · have := hfirst k y hk hky
      simpa [hasTriple, sameTriple] using this
    · have hji : j = i := hdistinct j i x a hjx hi hxa
      rw [hji, hi] at hjx
      exact (Option.some.inj hjx).symm
    · have hje : j = e := by
        by_cases h1 : j = e
        · exact h1
        · by_cases h2 : j = i
          · rw [h2] at hfirst
            have := hfirst e b he heb
            have hb : hasTriple a.PipelineName a.StageName a.ActionName b = true := by
              simpa [hasTriple, sameTriple] using hba
            rw [hb] at this
            cases this
          · exact absurd hxa (hothers j x h1 h2 hjx)
      rw [hje, heb] at hjx
      have hxb : x = b := (Option.some.inj hjx).symm
      exact ⟨hxb, by rw [hxb]⟩
  · intro hv p hi
    have hrows : getRowsForView m =
        m.Pipelines.elems.map
          (fun pipeline => [pipeline.Name, toString pipeline.Stages.length ++ " stages"]) := by
      rw [getRowsForView, hv]
      dsimp only
      cases m.Pipelines <;> rfl
    have hsel : SelectedRow m.Table =
        p.Name :: [toString p.Stages.length ++ " stages"] :=
      SelectedRow_of_rows m.Table _ _ i p (htable.trans hrows) hcur hi
    have hE := HandleEnter_pipeline_status_eq C m p.Name _ hv hsel
    obtain ⟨j, x, hj, hjx, hpx, hfind, hfirst⟩ :=
      find?_first_index (fun pipeline => decide (pipeline.Name = p.Name))
        m.Pipelines.elems i p hi (by simp)
    rw [hfind] at hE
    have hxp : x.Name = p.Name := by simpa using hpx
    refine ⟨j, x, hj, hjx, hxp, fun k y hk hky => ?_, hE, fun hdistinct => ?_,
      fun e b he heb hbp hothers => ?_⟩
    · have := hfirst k y hk hky
      simpa using this
    · have hji : j = i := hdistinct j i x p hjx hi hxp
      rw [hji, hi] at hjx
      exact (Option.some.inj hjx).symm
    · have hje : j = e := by
        by_cases h1 : j = e
        · exact h1
        · by_cases h2 : j = i
          · rw [h2] at hfirst
            have := hfirst e b he heb
            simp [hbp] at this
          · exact absurd hxp (hothers j x h1 h2 hjx)
      rw [hje, heb] at hjx
      exact (Option.some.inj hjx).symm

theorem render_then_select_witness :
    twinApprovalsModel.Table.rows = getRowsForView twinApprovalsModel ∧
    twinApprovalsModel.Table.cursor = 1 ∧
    twinApprovalsModel.CurrentView = ViewApprovals ∧
    twinApprovalsModel.Approvals.elems[1]? = some approvalP1b ∧
    (HandleEnter idCore twinApprovalsModel).map (fun r => r.1.SelectedApproval) =
      some (some approvalP1) ∧
    ∃ (j : Nat) (x : ApprovalAction),
      j ≤ 1 ∧ twinApprovalsModel.Approvals.elems[j]? = some x ∧ sameTriple x approvalP1b ∧
      (∀ (k : Nat) (y : ApprovalAction), k < j →
        twinApprovalsModel.Approvals.elems[k]? = some y → ¬sameTriple y approvalP1b) ∧
      HandleEnter idCore twinApprovalsModel =
        some (UpdateTableForView
          { twinApprovalsModel with SelectedApproval := some x,
                                    CurrentView := ViewConfirmation }, none) ∧
      ((∀ (k k' : Nat) (y y' : ApprovalAction),
          twinApprovalsModel.Approvals.elems[k]? = some y →
          twinApprovalsModel.Approvals.elems[k']? = some y' → sameTriple y y' → k = k') →
        x = approvalP1b) ∧
      (∀ (e : Nat) (b : ApprovalAction), e < 1 →
        twinApprovalsModel.Approvals.elems[e]? = some b → sameTriple b approvalP1b →
        (∀ (k : Nat) (y : ApprovalAction), k ≠ e → k ≠ 1 →
          twinApprovalsModel.Approvals.elems[k]? = some y → ¬sameTriple y approvalP1b) →
        x = b ∧ x.Token = b.Token) :=
  ⟨rfl, rfl, rfl, rfl, rfl,
    (render_then_select idCore twinApprovalsModel 1 rfl rfl).1 rfl approvalP1b rfl⟩

end Ciselect
